import Mathlib

/-!
# Bonne projection (`boost/geometry/srs/projections/proj/bonne.hpp`)

A shallow embedding of the Bonne (Werner lat_1=90) projection kernels and of
their parameter setup.

* The calculation type `T` is a linearly ordered field `α`; `fabs` is the
  absolute value of `α`, the operators `+ - * /` are the field's.  Division is
  the field's total division, so every statement that passes through a
  quotient either has a non-zero divisor under its hypotheses or says so.
* The C math library (`sin`, `cos`, `tan`, `sqrt`, `atan2`, `hypot`) and
  `detail::half_pi<T>()` are the fields of `Libm`; the kernels are written once,
  over any `Libm α`, and the theorems are about `realLibm`, the exact real
  functions.
* `pj_enfn`, `pj_mlfn` and `pj_inv_mlfn` live in `impl/pj_mlfn.hpp`; the kernels
  take them as the fields of `MeridianArc`.
* A thrown `projection_exception(code)` is `Except.error code`.
-/

namespace Bonne

/-- The two error codes `bonne.hpp` throws (`error_lat1_is_zero`,
`error_tolerance_condition`). -/
inductive Error where
  | lat1_is_zero
  | tolerance_condition
deriving DecidableEq, Repr

/-- The functions of the C math library the kernels call, and the constant
`detail::half_pi<T>()`. -/
structure Libm (α : Type) where
  sin : α → α
  cos : α → α
  tan : α → α
  sqrt : α → α
  atan2 : α → α → α
  hypot : α → α → α
  half_pi : α

/-- The meridian-arc collaborator of `impl/pj_mlfn.hpp`: `pj_enfn es` builds the
coefficient table, `pj_mlfn phi sphi cphi en` is the meridian distance and
`pj_inv_mlfn arg es en` the latitude of a meridian distance. -/
structure MeridianArc (α En : Type) where
  pj_enfn : α → En
  pj_mlfn : α → α → α → En → α
  pj_inv_mlfn : α → α → En → α

/-- `struct par_bonne`. -/
structure par_bonne (α En : Type) where
  phi1 : α
  cphi1 : α
  am1 : α
  m1 : α
  en : En

/-- The two members of `Parameters` that `bonne.hpp` reads: the parameter list
`par.params` and the eccentricity squared `par.es`. -/
structure Parameters (α : Type) where
  params : List (String × α)
  es : α

/-- Modelled from the spec: `pj_get_param_r` of `impl/projects.hpp` is not in the
source tree; "Reads `lat_1` from `raw`; if absent, treat as `0`". The value is
in radians. -/
def pj_get_param_r {α : Type} [Zero α] (params : List (String × α)) (name : String) : α :=
  match params.lookup name with
  | some v => v
  | none => 0

section Kernels

variable {α En : Type} [LinearOrderedField α]

/-- `static const double EPS10 = 1e-10;` -/
def EPS10 : α := 1e-10

/-- `base_bonne_spheroid::fwd`. -/
def s_forward (L : Libm α) (P : par_bonne α En) (lp_lon lp_lat : α) : α × α :=
  let rh := P.cphi1 + P.phi1 - lp_lat
  if |rh| > EPS10 then
    let E := lp_lon * L.cos lp_lat / rh
    (rh * L.sin E, P.cphi1 - rh * L.cos E)
  else
    (0, 0)

/-- `base_bonne_spheroid::inv`; the result is `(lp_lon, lp_lat)`. -/
def s_inverse (L : Libm α) (P : par_bonne α En) (xy_x xy_y : α) : Except Error (α × α) :=
  let xy_y := P.cphi1 - xy_y
  let rh := L.hypot xy_x xy_y
  let lp_lat := P.cphi1 + P.phi1 - rh
  if |lp_lat| > L.half_pi then
    .error .tolerance_condition
  else if |(|lp_lat| - L.half_pi)| ≤ EPS10 then
    .ok (0, lp_lat)
  else
    .ok (rh * L.atan2 xy_x xy_y / L.cos lp_lat, lp_lat)

/-- `base_bonne_ellipsoid::fwd`. -/
def e_forward (L : Libm α) (M : MeridianArc α En) (par : Parameters α) (P : par_bonne α En)
    (lp_lon lp_lat : α) : α × α :=
  let E := L.sin lp_lat
  let c := L.cos lp_lat
  let rh := P.am1 + P.m1 - M.pj_mlfn lp_lat E c P.en
  let E := c * lp_lon / (rh * L.sqrt (1 - par.es * E * E))
  (rh * L.sin E, P.am1 - rh * L.cos E)

/-- `base_bonne_ellipsoid::inv`; the result is `(lp_lon, lp_lat)`. -/
def e_inverse (L : Libm α) (M : MeridianArc α En) (par : Parameters α) (P : par_bonne α En)
    (xy_x xy_y : α) : Except Error (α × α) :=
  let xy_y := P.am1 - xy_y
  let rh := L.hypot xy_x xy_y
  let lp_lat := M.pj_inv_mlfn (P.am1 + P.m1 - rh) par.es P.en
  let s := |lp_lat|
  if s < L.half_pi then
    let s := L.sin lp_lat
    .ok (rh * L.atan2 xy_x xy_y * L.sqrt (1 - par.es * s * s) / L.cos lp_lat, lp_lat)
  else if |s - L.half_pi| ≤ EPS10 then
    .ok (0, lp_lat)
  else
    .error .tolerance_condition

/-- `setup_bonne`: `proj_parm` is passed in and the updated bundle returned; the
members a branch does not assign keep the value they came with. -/
def setup_bonne (L : Libm α) (M : MeridianArc α En) (par : Parameters α)
    (proj_parm : par_bonne α En) : Except Error (par_bonne α En) :=
  let proj_parm := { proj_parm with phi1 := pj_get_param_r par.params "lat_1" }
  if |proj_parm.phi1| < EPS10 then
    .error .lat1_is_zero
  else if par.es ≠ 0 then
    let proj_parm := { proj_parm with en := M.pj_enfn par.es }
    let proj_parm := { proj_parm with am1 := L.sin proj_parm.phi1 }
    let c := L.cos proj_parm.phi1
    let proj_parm := { proj_parm with
      m1 := M.pj_mlfn proj_parm.phi1 proj_parm.am1 c proj_parm.en }
    .ok { proj_parm with
      am1 := c / (L.sqrt (1 - par.es * proj_parm.am1 * proj_parm.am1) * proj_parm.am1) }
  else if |proj_parm.phi1| + EPS10 ≥ L.half_pi then
    .ok { proj_parm with cphi1 := 0 }
  else
    .ok { proj_parm with cphi1 := 1 / L.tan proj_parm.phi1 }

end Kernels

/-- The C math library over the exact reals: `atan2 y x` is the argument of
`x + y i` in `(-π, π]` (and `0` at the origin), `hypot x y = √(x² + y²)`. -/
noncomputable def realLibm : Libm ℝ where
  sin := Real.sin
  cos := Real.cos
  tan := Real.tan
  sqrt := Real.sqrt
  atan2 := fun y x => Complex.arg ⟨x, y⟩
  hypot := fun x y => Real.sqrt (x ^ 2 + y ^ 2)
  half_pi := Real.pi / 2

/-- A meridian-arc collaborator whose inverse is exact: the table is the single
number `1 - es`, the distance is `(1 - es) * phi`. Used for concrete inputs. -/
def linearArc (α : Type) [Field α] : MeridianArc α α where
  pj_enfn := fun es => 1 - es
  pj_mlfn := fun phi _ _ en => en * phi
  pj_inv_mlfn := fun arg _ en => arg / en

/-- The latitude the ellipsoidal inverse recovers,
`pj_inv_mlfn(am1 + m1 - hypot(x, am1 - y), es, en)` (lines 114-115 of `inv`). -/
def e_inverse_lat {α En : Type} [LinearOrderedField α] (L : Libm α) (M : MeridianArc α En)
    (par : Parameters α) (P : par_bonne α En) (xy_x xy_y : α) : α :=
  M.pj_inv_mlfn (P.am1 + P.m1 - L.hypot xy_x (P.am1 - xy_y)) par.es P.en

/-- The closed-form longitude of the ellipsoidal inverse,
`rh * atan2(x, am1 - y) * sqrt(1 - es * s * s) / cos(lat)` with `s = sin(lat)`
(lines 117-119 of `inv`). -/
def e_inverse_lon {α En : Type} [LinearOrderedField α] (L : Libm α) (M : MeridianArc α En)
    (par : Parameters α) (P : par_bonne α En) (xy_x xy_y : α) : α :=
  L.hypot xy_x (P.am1 - xy_y) * L.atan2 xy_x (P.am1 - xy_y) *
    L.sqrt (1 - par.es * L.sin (e_inverse_lat L M par P xy_x xy_y) *
      L.sin (e_inverse_lat L M par P xy_x xy_y)) / L.cos (e_inverse_lat L M par P xy_x xy_y)

/-- The cone radius of the ellipsoidal forward kernel,
`am1 + m1 - pj_mlfn(lat, sin(lat), cos(lat), en)` (line 100 of `fwd`). -/
def e_forward_rh {α En : Type} [LinearOrderedField α] (L : Libm α) (M : MeridianArc α En)
    (P : par_bonne α En) (lp_lat : α) : α :=
  P.am1 + P.m1 - M.pj_mlfn lp_lat (L.sin lp_lat) (L.cos lp_lat) P.en

/-- The angle of the ellipsoidal forward kernel,
`c * lon / (rh * sqrt(1 - es * E * E))` with `E = sin(lat)`, `c = cos(lat)`
(line 101 of `fwd`). -/
def e_forward_E {α En : Type} [LinearOrderedField α] (L : Libm α) (M : MeridianArc α En)
    (par : Parameters α) (P : par_bonne α En) (lp_lon lp_lat : α) : α :=
  L.cos lp_lat * lp_lon /
    (e_forward_rh L M P lp_lat * L.sqrt (1 - par.es * L.sin lp_lat * L.sin lp_lat))

/-- The body of the branch `par.es != 0.0` of `setup_bonne` (lines 201-204), on a
bundle whose `phi1` has been read. -/
def e_setup {α En : Type} [LinearOrderedField α] (L : Libm α) (M : MeridianArc α En)
    (par : Parameters α) (proj_parm : par_bonne α En) : par_bonne α En :=
  let proj_parm := { proj_parm with en := M.pj_enfn par.es }
  let proj_parm := { proj_parm with am1 := L.sin proj_parm.phi1 }
  let c := L.cos proj_parm.phi1
  let proj_parm := { proj_parm with
    m1 := M.pj_mlfn proj_parm.phi1 proj_parm.am1 c proj_parm.en }
  { proj_parm with
    am1 := c / (L.sqrt (1 - par.es * proj_parm.am1 * proj_parm.am1) * proj_parm.am1) }

/-- Which of the two kernel classes an object is: `bonne_ellipsoid` or
`bonne_spheroid`. -/
inductive Kernel where
  | ellipsoid
  | spheroid
deriving DecidableEq, Repr

/-- A constructed projection object: its class, and the members `m_par` and
`m_proj_parm` of the kernel base class. -/
structure Projection (α En : Type) where
  kernel : Kernel
  m_par : Parameters α
  m_proj_parm : par_bonne α En

section Factory

variable {α En : Type} [LinearOrderedField α]

/-- The constructor `bonne_ellipsoid(par)`: it stores `par` and runs
`setup_bonne(m_par, m_proj_parm)`; `proj_parm` is the content of the member
`m_proj_parm` before setup, which the constructor does not assign. -/
def bonne_ellipsoid (L : Libm α) (M : MeridianArc α En) (par : Parameters α)
    (proj_parm : par_bonne α En) : Except Error (Projection α En) :=
  match setup_bonne L M par proj_parm with
  | .ok P => .ok ⟨.ellipsoid, par, P⟩
  | .error e => .error e

/-- The constructor `bonne_spheroid(par)`. -/
def bonne_spheroid (L : Libm α) (M : MeridianArc α En) (par : Parameters α)
    (proj_parm : par_bonne α En) : Except Error (Projection α En) :=
  match setup_bonne L M par proj_parm with
  | .ok P => .ok ⟨.spheroid, par, P⟩
  | .error e => .error e

/-- `bonne_entry::create_new`: `if (par.es)` is true when `par.es` is not zero. -/
def create_new (L : Libm α) (M : MeridianArc α En) (par : Parameters α)
    (proj_parm : par_bonne α En) : Except Error (Projection α En) :=
  if par.es ≠ 0 then bonne_ellipsoid L M par proj_parm
  else bonne_spheroid L M par proj_parm

/-- The virtual `fwd` of the created object: it calls the `fwd` of its kernel
class on its own members. -/
def Projection.fwd (L : Libm α) (M : MeridianArc α En) (proj : Projection α En)
    (lp_lon lp_lat : α) : α × α :=
  match proj.kernel with
  | .ellipsoid => e_forward L M proj.m_par proj.m_proj_parm lp_lon lp_lat
  | .spheroid => s_forward L proj.m_proj_parm lp_lon lp_lat

/-- The virtual `inv` of the created object. -/
def Projection.inv (L : Libm α) (M : MeridianArc α En) (proj : Projection α En)
    (xy_x xy_y : α) : Except Error (α × α) :=
  match proj.kernel with
  | .ellipsoid => e_inverse L M proj.m_par proj.m_proj_parm xy_x xy_y
  | .spheroid => s_inverse L proj.m_proj_parm xy_x xy_y

/-- `bonne_init`: the entry is added to the factory under the name `"bonne"`;
`add_to_factory` belongs to `base_factory`, whose header is not in the source
tree, and is a parameter. -/
def bonne_init {F : Type} (L : Libm α) (M : MeridianArc α En)
    (add_to_factory : F → String →
      (Parameters α → par_bonne α En → Except Error (Projection α En)) → F)
    (factory : F) : F :=
  add_to_factory factory "bonne" (create_new L M)

end Factory

/-! ## The real math library, unfolded -/

@[simp] lemma realLibm_sin (x : ℝ) : realLibm.sin x = Real.sin x := rfl

@[simp] lemma realLibm_cos (x : ℝ) : realLibm.cos x = Real.cos x := rfl

@[simp] lemma realLibm_tan (x : ℝ) : realLibm.tan x = Real.tan x := rfl

@[simp] lemma realLibm_sqrt (x : ℝ) : realLibm.sqrt x = Real.sqrt x := rfl

@[simp] lemma realLibm_half_pi : realLibm.half_pi = Real.pi / 2 := rfl

lemma realLibm_atan2 (y x : ℝ) : realLibm.atan2 y x = Complex.arg ⟨x, y⟩ := rfl

lemma realLibm_hypot (x y : ℝ) : realLibm.hypot x y = Real.sqrt (x ^ 2 + y ^ 2) := rfl

lemma EPS10_real : (EPS10 : ℝ) = 1e-10 := rfl

/-! ## Setup -/

section Setup

variable {α En : Type} [LinearOrderedField α]

/-- C3: `setup_bonne` throws `error_lat1_is_zero` exactly when the value read
for `lat_1` has `|phi1| < 1e-10`, whatever the ellipse; a parameter list
without `lat_1` reads as `0`, so it fails, and so does `lat_1 = 0.0`. -/
theorem setup_bonne_lat1_is_zero_iff (L : Libm α) (M : MeridianArc α En) (par : Parameters α)
    (proj_parm : par_bonne α En) :
    (setup_bonne L M par proj_parm = Except.error Error.lat1_is_zero ↔
        |pj_get_param_r par.params "lat_1"| < (1e-10 : α)) ∧
      (par.params.lookup "lat_1" = none →
        pj_get_param_r par.params "lat_1" = (0 : α) ∧
          setup_bonne L M par proj_parm = Except.error Error.lat1_is_zero) ∧
      (par.params.lookup "lat_1" = some (0.0 : α) →
        setup_bonne L M par proj_parm = Except.error Error.lat1_is_zero) := by
  have eps_pos : (0 : α) < 1e-10 := by norm_num
  have key : setup_bonne L M par proj_parm = Except.error Error.lat1_is_zero ↔
      |pj_get_param_r par.params "lat_1"| < (1e-10 : α) := by
    unfold setup_bonne EPS10
    simp only []
    split_ifs with h1 h2 h3 <;> simp [h1]
  refine ⟨key, ?_, ?_⟩
  · intro hnone
    have h0 : pj_get_param_r par.params "lat_1" = (0 : α) := by
      simp [pj_get_param_r, hnone]
    exact ⟨h0, key.mpr (by rw [h0]; simpa using eps_pos)⟩
  · intro hsome
    have h0 : pj_get_param_r par.params "lat_1" = (0 : α) := by
      simp only [pj_get_param_r, hsome]; norm_num
    exact key.mpr (by rw [h0]; simpa using eps_pos)

end Setup

section SetupReal

variable {En : Type}

/-- The bundle `setup_bonne` returns in its spherical branch. -/
lemma setup_bonne_sphere (M : MeridianArc ℝ En) (par : Parameters ℝ)
    (proj_parm : par_bonne ℝ En)
    (hphi : (1e-10 : ℝ) ≤ |pj_get_param_r par.params "lat_1"|) (hes : par.es = 0) :
    setup_bonne realLibm M par proj_parm = Except.ok
      ⟨pj_get_param_r par.params "lat_1",
        if |pj_get_param_r par.params "lat_1"| + 1e-10 ≥ Real.pi / 2 then 0
        else 1 / Real.tan (pj_get_param_r par.params "lat_1"),
        proj_parm.am1, proj_parm.m1, proj_parm.en⟩ := by
  have hnot : ¬ |pj_get_param_r par.params "lat_1"| < (EPS10 : ℝ) := by
    unfold EPS10; exact not_lt.mpr hphi
  unfold setup_bonne
  simp only [hnot, hes, if_false, ne_eq, not_true_eq_false]
  by_cases hp : |pj_get_param_r par.params "lat_1"| + (1e-10 : ℝ) ≥ Real.pi / 2
  · rw [if_pos (by simpa [EPS10, realLibm] using hp), if_pos hp]
  · rw [if_neg (by simpa [EPS10, realLibm] using hp), if_neg hp]
    rfl

/-- The bundle `setup_bonne` returns in its ellipsoidal branch. -/
lemma setup_bonne_ellipsoid (M : MeridianArc ℝ En) (par : Parameters ℝ)
    (proj_parm : par_bonne ℝ En)
    (hphi : (1e-10 : ℝ) ≤ |pj_get_param_r par.params "lat_1"|) (hes : par.es ≠ 0) :
    setup_bonne realLibm M par proj_parm = Except.ok
      ⟨pj_get_param_r par.params "lat_1", proj_parm.cphi1,
        Real.cos (pj_get_param_r par.params "lat_1") /
          (Real.sqrt (1 - par.es * Real.sin (pj_get_param_r par.params "lat_1") *
              Real.sin (pj_get_param_r par.params "lat_1")) *
            Real.sin (pj_get_param_r par.params "lat_1")),
        M.pj_mlfn (pj_get_param_r par.params "lat_1")
          (Real.sin (pj_get_param_r par.params "lat_1"))
          (Real.cos (pj_get_param_r par.params "lat_1")) (M.pj_enfn par.es),
        M.pj_enfn par.es⟩ := by
  have hnot : ¬ |pj_get_param_r par.params "lat_1"| < (EPS10 : ℝ) := by
    unfold EPS10; exact not_lt.mpr hphi
  unfold setup_bonne
  simp only [hnot, hes, if_false, ne_eq, not_false_eq_true, if_true]
  rfl

/-- C9: once the degenerate-parallel check is passed (`|phi1| ≥ 1e-10`), the
ellipsoidal branch (`es ≠ 0`) yields `m1 = pj_mlfn(phi1, sin phi1, cos phi1, en)`
with `en = pj_enfn(es)` and `am1 = cos phi1 / (sqrt(1 - es sin² phi1) · sin phi1)`
(the temporary use of `am1` for `sin phi1` leaves no trace), and the spherical
branch (`es = 0`) yields `cphi1 = 0` if `|phi1| + 1e-10 ≥ π/2` and
`cphi1 = 1 / tan phi1` otherwise. -/
theorem setup_bonne_constants (M : MeridianArc ℝ En) (par : Parameters ℝ)
    (proj_parm : par_bonne ℝ En)
    (hphi : (1e-10 : ℝ) ≤ |pj_get_param_r par.params "lat_1"|) :
    (par.es ≠ 0 →
      ∃ P, setup_bonne realLibm M par proj_parm = Except.ok P ∧
        P.phi1 = pj_get_param_r par.params "lat_1" ∧
        P.m1 = M.pj_mlfn P.phi1 (Real.sin P.phi1) (Real.cos P.phi1) (M.pj_enfn par.es) ∧
        P.am1 = Real.cos P.phi1 /
          (Real.sqrt (1 - par.es * Real.sin P.phi1 ^ 2) * Real.sin P.phi1)) ∧
    (par.es = 0 →
      ∃ P, setup_bonne realLibm M par proj_parm = Except.ok P ∧
        P.phi1 = pj_get_param_r par.params "lat_1" ∧
        P.cphi1 = if |P.phi1| + 1e-10 ≥ Real.pi / 2 then 0 else 1 / Real.tan P.phi1) := by
  constructor
  · intro hes
    refine ⟨_, setup_bonne_ellipsoid M par proj_parm hphi hes, rfl, rfl, ?_⟩
    simp only [pow_two, mul_assoc]
  · intro hes
    exact ⟨_, setup_bonne_sphere M par proj_parm hphi hes, rfl, rfl⟩

/-- C9 at `lat_1 = 1`, on the sphere and on the ellipsoid `es = 1/2`. -/
theorem setup_bonne_constants_witness :
    ((1e-10 : ℝ) ≤ |pj_get_param_r [("lat_1", (1 : ℝ))] "lat_1"|) ∧
    (∃ P, setup_bonne realLibm (linearArc ℝ) ⟨[("lat_1", 1)], 1 / 2⟩ ⟨0, 0, 0, 0, 0⟩
        = Except.ok P ∧ P.m1 = 1 / 2 ∧
        P.am1 = Real.cos 1 / (Real.sqrt (1 - 1 / 2 * Real.sin 1 ^ 2) * Real.sin 1)) ∧
    (∃ P, setup_bonne realLibm (linearArc ℝ) ⟨[("lat_1", 1)], 0⟩ ⟨0, 0, 0, 0, 0⟩
        = Except.ok P ∧ P.cphi1 = 1 / Real.tan 1) := by
  have h1 : pj_get_param_r [("lat_1", (1 : ℝ))] "lat_1" = 1 := by
    simp [pj_get_param_r, List.lookup]
  have hphi : (1e-10 : ℝ) ≤ |pj_get_param_r [("lat_1", (1 : ℝ))] "lat_1"| := by
    rw [h1]; norm_num
  have hpi : ¬ (|(1 : ℝ)| + 1e-10 ≥ Real.pi / 2) := by
    have := Real.pi_gt_three
    rw [abs_one]; norm_num; linarith
  refine ⟨hphi, ?_, ?_⟩
  · obtain ⟨P, hP, hphi1, hm1, ham1⟩ :=
      (setup_bonne_constants (linearArc ℝ) ⟨[("lat_1", 1)], 1 / 2⟩ ⟨0, 0, 0, 0, 0⟩ hphi).1
        (by norm_num)
    simp only [h1] at hphi1
    refine ⟨P, hP, ?_, ?_⟩
    · rw [hm1, hphi1]; simp [linearArc]; norm_num
    · rw [ham1, hphi1]
  · obtain ⟨P, hP, hphi1, hc⟩ :=
      (setup_bonne_constants (linearArc ℝ) ⟨[("lat_1", 1)], 0⟩ ⟨0, 0, 0, 0, 0⟩ hphi).2 rfl
    simp only [h1] at hphi1
    refine ⟨P, hP, ?_⟩
    rw [hc, hphi1, if_neg hpi]

end SetupReal

/-! ## The spherical kernel -/

section Spheroid

variable {En : Type}

/-- C6: with `rh = cphi1 + phi1 - lat`, the spherical forward kernel returns
exactly `(0, 0)` when `|rh| ≤ 1e-10`, and otherwise `x = rh sin E`,
`y = cphi1 - rh cos E` with `E = lon cos(lat) / rh`, a quotient whose divisor is
then non-zero. -/
theorem s_forward_spec (P : par_bonne ℝ En) (lon lat : ℝ) :
    s_forward realLibm P lon lat =
        (if |P.cphi1 + P.phi1 - lat| ≤ 1e-10 then (0, 0)
         else ((P.cphi1 + P.phi1 - lat) *
                  Real.sin (lon * Real.cos lat / (P.cphi1 + P.phi1 - lat)),
               P.cphi1 - (P.cphi1 + P.phi1 - lat) *
                  Real.cos (lon * Real.cos lat / (P.cphi1 + P.phi1 - lat)))) ∧
      (¬ |P.cphi1 + P.phi1 - lat| ≤ 1e-10 → P.cphi1 + P.phi1 - lat ≠ 0) := by
  constructor
  · unfold s_forward EPS10
    by_cases h : |P.cphi1 + P.phi1 - lat| ≤ (1e-10 : ℝ)
    · rw [if_pos h]
      simp only [gt_iff_lt, not_lt.mpr h, if_false]
    · rw [if_neg h]
      simp only [gt_iff_lt, not_le.mp h, if_true]
      rfl
  · intro h h0
    apply h
    rw [h0, abs_zero]
    norm_num

/-- C4: the spherical inverse throws `error_tolerance_condition` exactly when the
recovered latitude `lat = cphi1 + phi1 - hypot(x, cphi1 - y)` has `|lat| > π/2`;
it throws nothing else, and a returned latitude lies in `[-π/2, π/2]`. -/
theorem s_inverse_error_iff (P : par_bonne ℝ En) (x y : ℝ) :
    (s_inverse realLibm P x y = Except.error Error.tolerance_condition ↔
        |P.cphi1 + P.phi1 - realLibm.hypot x (P.cphi1 - y)| > Real.pi / 2) ∧
      (∀ e, s_inverse realLibm P x y = Except.error e → e = Error.tolerance_condition) ∧
      (∀ lon lat, s_inverse realLibm P x y = Except.ok (lon, lat) →
        lat = P.cphi1 + P.phi1 - realLibm.hypot x (P.cphi1 - y) ∧
          -(Real.pi / 2) ≤ lat ∧ lat ≤ Real.pi / 2) := by
  by_cases h : |P.cphi1 + P.phi1 - realLibm.hypot x (P.cphi1 - y)| > Real.pi / 2
  · have hs : s_inverse realLibm P x y = Except.error Error.tolerance_condition := by
      unfold s_inverse
      simp only []
      rw [if_pos (show _ > realLibm.half_pi from h)]
    refine ⟨⟨fun _ => h, fun _ => hs⟩, ?_, ?_⟩
    · intro e he
      rw [hs] at he
      injection he with he
      exact he.symm
    · intro lon lat hok
      rw [hs] at hok
      cases hok
  · have hs : ∃ lon, s_inverse realLibm P x y =
        Except.ok (lon, P.cphi1 + P.phi1 - realLibm.hypot x (P.cphi1 - y)) := by
      unfold s_inverse
      simp only []
      rw [if_neg (show ¬ _ > realLibm.half_pi from h)]
      split_ifs
      · exact ⟨_, rfl⟩
      · exact ⟨_, rfl⟩
    obtain ⟨lon0, hs⟩ := hs
    refine ⟨⟨fun he => ?_, fun hh => absurd hh h⟩, ?_, ?_⟩
    · rw [hs] at he
      cases he
    · intro e he
      rw [hs] at he
      cases he
    · intro lon lat hok
      rw [hs] at hok
      injection hok with hok
      injection hok with h1 h2
      subst h2
      have := abs_le.mp (not_lt.mp h)
      exact ⟨rfl, this.1, this.2⟩

end Spheroid

/-! ## The ellipsoidal inverse: its three branches -/

section EllipsoidInverse

variable {En : Type}

lemma e_inverse_lt (M : MeridianArc ℝ En) (par : Parameters ℝ) (P : par_bonne ℝ En) (x y : ℝ)
    (h : |e_inverse_lat realLibm M par P x y| < Real.pi / 2) :
    e_inverse realLibm M par P x y =
      Except.ok (e_inverse_lon realLibm M par P x y, e_inverse_lat realLibm M par P x y) := by
  unfold e_inverse_lon
  unfold e_inverse_lat at h ⊢
  unfold e_inverse
  simp only []
  rw [if_pos (show _ < realLibm.half_pi from h)]

lemma e_inverse_pole (M : MeridianArc ℝ En) (par : Parameters ℝ) (P : par_bonne ℝ En) (x y : ℝ)
    (h1 : Real.pi / 2 ≤ |e_inverse_lat realLibm M par P x y|)
    (h2 : |e_inverse_lat realLibm M par P x y| ≤ Real.pi / 2 + 1e-10) :
    e_inverse realLibm M par P x y = Except.ok (0, e_inverse_lat realLibm M par P x y) := by
  unfold e_inverse_lat at h1 h2 ⊢
  unfold e_inverse
  simp only []
  rw [if_neg (show ¬ _ < realLibm.half_pi from not_lt.mpr h1), if_pos]
  rw [realLibm_half_pi, EPS10_real, abs_of_nonneg (by linarith)]
  linarith

lemma e_inverse_beyond (M : MeridianArc ℝ En) (par : Parameters ℝ) (P : par_bonne ℝ En)
    (x y : ℝ) (h : Real.pi / 2 + 1e-10 < |e_inverse_lat realLibm M par P x y|) :
    e_inverse realLibm M par P x y = Except.error Error.tolerance_condition := by
  have hpos : (0 : ℝ) < 1e-10 := by norm_num
  unfold e_inverse_lat at h
  unfold e_inverse
  simp only []
  rw [if_neg (show ¬ _ < realLibm.half_pi from
      not_lt.mpr (by rw [realLibm_half_pi]; linarith)), if_neg]
  rw [realLibm_half_pi, EPS10_real, abs_of_nonneg (by linarith)]
  linarith

/-- C5 (amended): the ellipsoidal inverse throws `error_tolerance_condition`
exactly when the recovered latitude is beyond the pole by more than the
tolerance, `|lat| > π/2 + 1e-10`; for `π/2 ≤ |lat| ≤ π/2 + 1e-10` it returns
`(0, lat)`. -/
theorem e_inverse_error_iff (M : MeridianArc ℝ En) (par : Parameters ℝ) (P : par_bonne ℝ En)
    (x y : ℝ) :
    (e_inverse realLibm M par P x y = Except.error Error.tolerance_condition ↔
        |e_inverse_lat realLibm M par P x y| > Real.pi / 2 + 1e-10) ∧
      (Real.pi / 2 ≤ |e_inverse_lat realLibm M par P x y| ∧
          |e_inverse_lat realLibm M par P x y| ≤ Real.pi / 2 + 1e-10 →
        e_inverse realLibm M par P x y =
          Except.ok (0, e_inverse_lat realLibm M par P x y)) := by
  refine ⟨⟨fun he => ?_, fun h => e_inverse_beyond M par P x y h⟩,
    fun h => e_inverse_pole M par P x y h.1 h.2⟩
  by_contra hle
  rw [gt_iff_lt, not_lt] at hle
  by_cases h1 : |e_inverse_lat realLibm M par P x y| < Real.pi / 2
  · rw [e_inverse_lt M par P x y h1] at he
    cases he
  · rw [e_inverse_pole M par P x y (not_lt.mp h1) hle] at he
    cases he

/-- C10 (amended): the ellipsoidal inverse returns the closed-form longitude
exactly on `|lat| < π/2`, where `cos(lat) > 0`; on `π/2 ≤ |lat| ≤ π/2 + 1e-10` it
returns `(0, lat)`, and beyond `|lat| ≥ π/2` it returns no other longitude
than `0`. -/
theorem e_inverse_longitude (M : MeridianArc ℝ En) (par : Parameters ℝ) (P : par_bonne ℝ En)
    (x y : ℝ) :
    (|e_inverse_lat realLibm M par P x y| < Real.pi / 2 →
        e_inverse realLibm M par P x y =
            Except.ok (e_inverse_lon realLibm M par P x y, e_inverse_lat realLibm M par P x y) ∧
          0 < Real.cos (e_inverse_lat realLibm M par P x y)) ∧
      (Real.pi / 2 ≤ |e_inverse_lat realLibm M par P x y| ∧
          |e_inverse_lat realLibm M par P x y| ≤ Real.pi / 2 + 1e-10 →
        e_inverse realLibm M par P x y =
          Except.ok (0, e_inverse_lat realLibm M par P x y)) ∧
      (Real.pi / 2 ≤ |e_inverse_lat realLibm M par P x y| →
        ∀ lon lat, e_inverse realLibm M par P x y = Except.ok (lon, lat) →
          lon = 0 ∧ lat = e_inverse_lat realLibm M par P x y ∧ |lat| ≤ Real.pi / 2 + 1e-10) := by
  refine ⟨?_, fun h => e_inverse_pole M par P x y h.1 h.2, ?_⟩
  · intro h
    refine ⟨e_inverse_lt M par P x y h, Real.cos_pos_of_mem_Ioo ?_⟩
    have := abs_lt.mp h
    exact ⟨by linarith [this.1], this.2⟩
  · intro h lon lat hok
    by_cases h2 : |e_inverse_lat realLibm M par P x y| ≤ Real.pi / 2 + 1e-10
    · rw [e_inverse_pole M par P x y h h2] at hok
      injection hok with hok
      injection hok with ha hb
      subst ha hb
      exact ⟨rfl, rfl, h2⟩
    · rw [e_inverse_beyond M par P x y (not_le.mp h2)] at hok
      cases hok

end EllipsoidInverse

section EllipsoidInverseExamples

lemma hypot_zero_left (a : ℝ) (ha : 0 ≤ a) : realLibm.hypot 0 a = a := by
  rw [realLibm_hypot]
  simp [Real.sqrt_sq ha]

lemma hypot_zero_right (a : ℝ) (ha : 0 ≤ a) : realLibm.hypot a 0 = a := by
  rw [realLibm_hypot]
  simp [Real.sqrt_sq ha]

/-- C5 (counterexample): on the Werner bundle `am1 = 0`, `m1 = π/4`, `en = 1/2`
of the collaborator `linearArc` with `es = 1/2`, the point
`(0, -(π/2 + 5e-11))` recovers `lat = -π/2 - 1e-10`, strictly beyond the pole,
and the ellipsoidal inverse returns `(0, lat)` instead of failing. -/
theorem e_inverse_beyond_pole_ok :
    |e_inverse_lat realLibm (linearArc ℝ) ⟨[], 1 / 2⟩ ⟨Real.pi / 2, 0, 0, Real.pi / 4, 1 / 2⟩
        0 (-(Real.pi / 2 + 5e-11))| > Real.pi / 2 ∧
      e_inverse realLibm (linearArc ℝ) ⟨[], 1 / 2⟩ ⟨Real.pi / 2, 0, 0, Real.pi / 4, 1 / 2⟩
        0 (-(Real.pi / 2 + 5e-11)) = Except.ok (0, -(Real.pi / 2) - 1e-10) := by
  have hpi := Real.pi_pos
  have hlat : e_inverse_lat realLibm (linearArc ℝ) ⟨[], 1 / 2⟩
      ⟨Real.pi / 2, 0, 0, Real.pi / 4, 1 / 2⟩ 0 (-(Real.pi / 2 + 5e-11))
      = -(Real.pi / 2) - 1e-10 := by
    unfold e_inverse_lat
    simp only [linearArc]
    rw [show (0 : ℝ) - -(Real.pi / 2 + 5e-11) = Real.pi / 2 + 5e-11 by ring,
      hypot_zero_left _ (by norm_num; linarith)]
    norm_num
    ring
  have habs : |(-(Real.pi / 2) - 1e-10 : ℝ)| = Real.pi / 2 + 1e-10 := by
    rw [abs_of_neg (by norm_num; linarith)]
    ring
  refine ⟨?_, ?_⟩
  · rw [hlat, habs]
    norm_num
  · have := e_inverse_pole (linearArc ℝ) ⟨[], 1 / 2⟩ ⟨Real.pi / 2, 0, 0, Real.pi / 4, 1 / 2⟩
      0 (-(Real.pi / 2 + 5e-11)) (by rw [hlat, habs]; norm_num) (by rw [hlat, habs])
    rw [this, hlat]

/-- C10 (counterexample): on the same bundle the point `(2.5e-11, 0)` recovers
`lat = π/2 - 5e-11`, which is at-pole (`||lat| - π/2| ≤ 1e-10`, so not
`|lat| < π/2 - 1e-10`), and the ellipsoidal inverse returns the closed-form
longitude, which is not `0`. -/
theorem e_inverse_at_pole_closed_form :
    e_inverse realLibm (linearArc ℝ) ⟨[], 1 / 2⟩ ⟨Real.pi / 2, 0, 0, Real.pi / 4, 1 / 2⟩
        2.5e-11 0 =
      Except.ok (e_inverse_lon realLibm (linearArc ℝ) ⟨[], 1 / 2⟩
          ⟨Real.pi / 2, 0, 0, Real.pi / 4, 1 / 2⟩ 2.5e-11 0, Real.pi / 2 - 5e-11) ∧
      e_inverse_lon realLibm (linearArc ℝ) ⟨[], 1 / 2⟩
          ⟨Real.pi / 2, 0, 0, Real.pi / 4, 1 / 2⟩ 2.5e-11 0 ≠ 0 ∧
      |(|Real.pi / 2 - 5e-11| - Real.pi / 2 : ℝ)| ≤ 1e-10 ∧
      ¬ (|(Real.pi / 2 - 5e-11 : ℝ)| < Real.pi / 2 - 1e-10) := by
  have hpi := Real.pi_gt_three
  have hlat : e_inverse_lat realLibm (linearArc ℝ) ⟨[], 1 / 2⟩
      ⟨Real.pi / 2, 0, 0, Real.pi / 4, 1 / 2⟩ 2.5e-11 0 = Real.pi / 2 - 5e-11 := by
    unfold e_inverse_lat
    simp only [linearArc]
    rw [sub_zero, hypot_zero_right _ (by norm_num)]
    norm_num
    ring
  have hpos : (0 : ℝ) < Real.pi / 2 - 5e-11 := by norm_num; linarith
  have habs : |(Real.pi / 2 - 5e-11 : ℝ)| = Real.pi / 2 - 5e-11 := abs_of_pos hpos
  have hlt : |e_inverse_lat realLibm (linearArc ℝ) ⟨[], 1 / 2⟩
      ⟨Real.pi / 2, 0, 0, Real.pi / 4, 1 / 2⟩ 2.5e-11 0| < Real.pi / 2 := by
    rw [hlat, habs]; norm_num
  refine ⟨?_, ?_, ?_, ?_⟩
  · rw [e_inverse_lt _ _ _ _ _ hlt, hlat]
  · unfold e_inverse_lon
    rw [hlat]
    simp only [sub_zero, realLibm_sqrt, realLibm_sin, realLibm_cos]
    rw [hypot_zero_right _ (by norm_num), realLibm_atan2]
    have harg : Complex.arg ⟨0, 2.5e-11⟩ = Real.pi / 2 :=
      Complex.arg_eq_pi_div_two_iff.mpr ⟨rfl, by show (0 : ℝ) < 2.5e-11; norm_num⟩
    rw [harg]
    have hcos : 0 < Real.cos (Real.pi / 2 - 5e-11) :=
      Real.cos_pos_of_mem_Ioo ⟨by linarith, by norm_num⟩
    have hsq : 0 < 1 - 1 / 2 * Real.sin (Real.pi / 2 - 5e-11) *
        Real.sin (Real.pi / 2 - 5e-11) := by
      have := Real.sin_sq_le_one (Real.pi / 2 - 5e-11)
      nlinarith
    have hs := Real.sqrt_pos.mpr hsq
    have h25 : (0 : ℝ) < 2.5e-11 := by norm_num
    positivity
  · rw [habs, abs_of_neg (by norm_num)]
    norm_num
  · rw [habs]
    norm_num

end EllipsoidInverseExamples

/-! ## The point on the standard parallel at the central meridian -/

section StandardParallel

variable {En : Type}

lemma tan_forty_degrees : 0 < Real.tan (40 * Real.pi / 180) ∧ Real.tan (40 * Real.pi / 180) < 1 := by
  have hpi := Real.pi_pos
  constructor
  · exact Real.tan_pos_of_pos_of_lt_pi_div_two (by positivity) (by linarith)
  · rw [← Real.tan_pi_div_four]
    exact Real.tan_lt_tan_of_nonneg_of_lt_pi_div_two (by positivity) (by linarith) (by linarith)

/-- Setup in the spec's scenario: `lat_1 = 40°`, a sphere. -/
lemma setup_bonne_forty_degrees (M : MeridianArc ℝ En) (proj_parm : par_bonne ℝ En) :
    setup_bonne realLibm M ⟨[("lat_1", 40 * Real.pi / 180)], 0⟩ proj_parm =
      Except.ok ⟨40 * Real.pi / 180, 1 / Real.tan (40 * Real.pi / 180),
        proj_parm.am1, proj_parm.m1, proj_parm.en⟩ := by
  have hpi := Real.pi_gt_three
  have h1 : pj_get_param_r [("lat_1", 40 * Real.pi / 180)] "lat_1" = 40 * Real.pi / 180 := by
    simp [pj_get_param_r, List.lookup]
  have hpos : (0 : ℝ) < 40 * Real.pi / 180 := by positivity
  have hphi : (1e-10 : ℝ) ≤ |pj_get_param_r [("lat_1", 40 * Real.pi / 180)] "lat_1"| := by
    rw [h1, abs_of_pos hpos]; norm_num; linarith
  rw [setup_bonne_sphere M ⟨[("lat_1", 40 * Real.pi / 180)], 0⟩ proj_parm hphi rfl]
  simp only [h1]
  rw [if_neg]
  rw [abs_of_pos hpos]
  norm_num
  linarith

/-- With `lon = 0` and `lat = phi1` the spherical forward kernel returns the
origin, whichever branch it takes. -/
lemma s_forward_origin (P : par_bonne ℝ En) : s_forward realLibm P 0 P.phi1 = (0, 0) := by
  unfold s_forward
  simp only []
  split_ifs
  · simp
  · rfl

/-- C8 (counterexample): in the scenario `lat_1 = 40°`, `es = 0`, `lon = 0`,
`lat = 40°`, setup gives `cphi1 = 1 / tan(40°)` and the cone radius
`rh = cphi1 + phi1 - lat` is not within `1e-10` of zero. -/
theorem scenario_rh_not_near_zero :
    ∃ P, setup_bonne realLibm (linearArc ℝ) ⟨[("lat_1", 40 * Real.pi / 180)], 0⟩
          ⟨0, 0, 0, 0, 0⟩ = Except.ok P ∧
      P.cphi1 = 1 / Real.tan (40 * Real.pi / 180) ∧
      ¬ |P.cphi1 + P.phi1 - 40 * Real.pi / 180| ≤ 1e-10 := by
  refine ⟨_, setup_bonne_forty_degrees (linearArc ℝ) ⟨0, 0, 0, 0, 0⟩, rfl, ?_⟩
  obtain ⟨h0, h1⟩ := tan_forty_degrees
  have hgt : 1 < 1 / Real.tan (40 * Real.pi / 180) := (one_lt_div h0).mpr h1
  show ¬ |1 / Real.tan (40 * Real.pi / 180) + 40 * Real.pi / 180 - 40 * Real.pi / 180| ≤ 1e-10
  rw [add_sub_cancel_right, abs_of_pos (by linarith)]
  norm_num
  norm_num at hgt
  linarith

/-- C8 (amended): in the scenario `lat_1 = 40°`, `es = 0`, `lon = 0`, `lat = 40°`
the cone radius is `rh = cphi1 = 1 / tan(40°) > 1`, so the kernel takes its
general branch, and the output is `(0, 0)` because `E = 0`:
`x = rh sin 0 = 0` and `y = cphi1 - rh cos 0 = 0`. -/
theorem scenario_general_branch (M : MeridianArc ℝ En) (proj_parm : par_bonne ℝ En) :
    ∃ P, setup_bonne realLibm M ⟨[("lat_1", 40 * Real.pi / 180)], 0⟩ proj_parm = Except.ok P ∧
      P.cphi1 + P.phi1 - 40 * Real.pi / 180 = 1 / Real.tan (40 * Real.pi / 180) ∧
      1 < P.cphi1 + P.phi1 - 40 * Real.pi / 180 ∧
      0 * Real.cos (40 * Real.pi / 180) / (P.cphi1 + P.phi1 - 40 * Real.pi / 180) = 0 ∧
      s_forward realLibm P 0 (40 * Real.pi / 180) =
        ((P.cphi1 + P.phi1 - 40 * Real.pi / 180) * Real.sin 0,
          P.cphi1 - (P.cphi1 + P.phi1 - 40 * Real.pi / 180) * Real.cos 0) ∧
      s_forward realLibm P 0 (40 * Real.pi / 180) = (0, 0) := by
  obtain ⟨h0, h1⟩ := tan_forty_degrees
  have hgt : 1 < 1 / Real.tan (40 * Real.pi / 180) := (one_lt_div h0).mpr h1
  have hrh : 1 / Real.tan (40 * Real.pi / 180) + 40 * Real.pi / 180 - 40 * Real.pi / 180
      = 1 / Real.tan (40 * Real.pi / 180) := add_sub_cancel_right _ _
  refine ⟨_, setup_bonne_forty_degrees M proj_parm, hrh, ?_, ?_, ?_, ?_⟩
  · show 1 < 1 / Real.tan (40 * Real.pi / 180) + 40 * Real.pi / 180 - 40 * Real.pi / 180
    rw [hrh]; exact hgt
  · simp
  · unfold s_forward
    simp only []
    rw [if_pos]
    · simp
    · show |1 / Real.tan (40 * Real.pi / 180) + 40 * Real.pi / 180 - 40 * Real.pi / 180|
        > (1e-10 : ℝ)
      rw [hrh, abs_of_pos (by linarith)]
      norm_num
      norm_num at hgt
      linarith
  · exact s_forward_origin _

end StandardParallel

section StandardParallelOrigin

variable {En : Type}

/-- A setup that returns has passed the degenerate-parallel check. -/
lemma setup_bonne_ok_abs (M : MeridianArc ℝ En) (par : Parameters ℝ)
    (proj_parm P : par_bonne ℝ En) (hset : setup_bonne realLibm M par proj_parm = Except.ok P) :
    (1e-10 : ℝ) ≤ |pj_get_param_r par.params "lat_1"| := by
  by_contra h
  rw [not_le] at h
  have herr : setup_bonne realLibm M par proj_parm = Except.error Error.lat1_is_zero := by
    unfold setup_bonne
    simp only []
    rw [if_pos (show _ < (EPS10 : ℝ) from h)]
  rw [herr] at hset
  cases hset

lemma sin_ne_zero_of_abs (phi : ℝ) (h1 : (1e-10 : ℝ) ≤ |phi|) (h2 : |phi| ≤ Real.pi / 2) :
    Real.sin phi ≠ 0 := by
  have hpi := Real.pi_pos
  have heps : (0 : ℝ) < 1e-10 := by norm_num
  rcases le_or_lt 0 phi with h | h
  · rw [abs_of_nonneg h] at h1 h2
    exact (Real.sin_pos_of_pos_of_lt_pi (by linarith) (by linarith)).ne.symm
  · rw [abs_of_neg h] at h1 h2
    exact (Real.sin_neg_of_neg_of_neg_pi_lt h (by linarith)).ne

lemma one_sub_es_sin_sq_pos (es phi : ℝ) (hes : es < 1) :
    0 < 1 - es * Real.sin phi * Real.sin phi := by
  have h1 := Real.sin_sq_le_one phi
  have h0 := sq_nonneg (Real.sin phi)
  rcases le_or_lt es 0 with h | h
  · nlinarith
  · nlinarith

/-- C7: for a bundle `P` returned by `setup_bonne`, the forward kernel chosen
for the ellipse maps `(lon, lat) = (0, phi1)` to `(0, 0)`: the spherical kernel
when `es = 0`, the ellipsoidal kernel when `es ≠ 0` and `|phi1| < π/2`; in the
ellipsoidal case the divisor `rh * sqrt(1 - es sin² phi1)` is non-zero when
`es < 1`. -/
theorem forward_standard_parallel_origin (M : MeridianArc ℝ En) (par : Parameters ℝ)
    (proj_parm P : par_bonne ℝ En)
    (hset : setup_bonne realLibm M par proj_parm = Except.ok P) :
    P.phi1 = pj_get_param_r par.params "lat_1" ∧
      (par.es = 0 → s_forward realLibm P 0 P.phi1 = (0, 0)) ∧
      (par.es ≠ 0 → |P.phi1| < Real.pi / 2 →
        e_forward realLibm M par P 0 P.phi1 = (0, 0)) ∧
      (par.es ≠ 0 → par.es < 1 → |P.phi1| < Real.pi / 2 →
        (P.am1 + P.m1 - M.pj_mlfn P.phi1 (Real.sin P.phi1) (Real.cos P.phi1) P.en) *
          Real.sqrt (1 - par.es * Real.sin P.phi1 * Real.sin P.phi1) ≠ 0) := by
  have hphi := setup_bonne_ok_abs M par proj_parm P hset
  by_cases hes : par.es = 0
  · rw [setup_bonne_sphere M par proj_parm hphi hes] at hset
    injection hset with hP
    subst hP
    exact ⟨rfl, fun _ => s_forward_origin _, fun h => absurd hes h, fun h => absurd hes h⟩
  · rw [setup_bonne_ellipsoid M par proj_parm hphi hes] at hset
    injection hset with hP
    subst hP
    refine ⟨rfl, fun h => absurd h hes, fun _ _ => ?_, fun _ hlt hhalf => ?_⟩
    · unfold e_forward
      simp
    · simp only [add_sub_cancel_right]
      have hsin := sin_ne_zero_of_abs _ hphi hhalf.le
      have hsq := Real.sqrt_pos.mpr
        (one_sub_es_sin_sq_pos par.es (pj_get_param_r par.params "lat_1") hlt)
      have hcos : 0 < Real.cos (pj_get_param_r par.params "lat_1") :=
        Real.cos_pos_of_mem_Ioo ⟨by linarith [(abs_lt.mp hhalf).1], (abs_lt.mp hhalf).2⟩
      exact mul_ne_zero (div_ne_zero hcos.ne.symm (mul_ne_zero hsq.ne.symm hsin)) hsq.ne.symm

/-- C7 in the spec's scenario: `lat_1 = 40°`, `es = 0`, `lon = 0`, `lat = 40°`. -/
theorem forward_standard_parallel_origin_witness :
    setup_bonne realLibm (linearArc ℝ) ⟨[("lat_1", 40 * Real.pi / 180)], 0⟩ ⟨0, 0, 0, 0, 0⟩ =
        Except.ok ⟨40 * Real.pi / 180, 1 / Real.tan (40 * Real.pi / 180), 0, 0, 0⟩ ∧
      s_forward realLibm
        (⟨40 * Real.pi / 180, 1 / Real.tan (40 * Real.pi / 180), 0, 0, 0⟩ : par_bonne ℝ ℝ)
        0 (40 * Real.pi / 180) = (0, 0) :=
  ⟨setup_bonne_forty_degrees (linearArc ℝ) ⟨0, 0, 0, 0, 0⟩,
    (forward_standard_parallel_origin (linearArc ℝ) ⟨[("lat_1", 40 * Real.pi / 180)], 0⟩
      ⟨0, 0, 0, 0, 0⟩ ⟨40 * Real.pi / 180, 1 / Real.tan (40 * Real.pi / 180), 0, 0, 0⟩
      (setup_bonne_forty_degrees (linearArc ℝ) ⟨0, 0, 0, 0, 0⟩)).2.1 rfl⟩

end StandardParallelOrigin

/-! ## Round trips -/

section Polar

lemma hypot_polar (rh E : ℝ) :
    realLibm.hypot (rh * Real.sin E) (rh * Real.cos E) = |rh| := by
  rw [realLibm_hypot, ← Real.sqrt_sq_eq_abs]
  congr 1
  have := Real.sin_sq_add_cos_sq E
  nlinarith

lemma atan2_polar (rh E : ℝ) (hrh : 0 < rh) (h1 : -Real.pi < E) (h2 : E ≤ Real.pi) :
    realLibm.atan2 (rh * Real.sin E) (rh * Real.cos E) = E := by
  rw [realLibm_atan2]
  have hz : (⟨rh * Real.cos E, rh * Real.sin E⟩ : ℂ) =
      (rh : ℂ) * (Complex.cos (E : ℂ) + Complex.sin (E : ℂ) * Complex.I) := by
    apply Complex.ext
    · simp [← Complex.ofReal_cos, ← Complex.ofReal_sin]
    · simp [← Complex.ofReal_cos, ← Complex.ofReal_sin]
  rw [hz]
  exact Complex.arg_mul_cos_add_sin_mul_I hrh ⟨h1, h2⟩

lemma abs_atan2_le (y x : ℝ) : |realLibm.atan2 y x| ≤ Real.pi := by
  rw [realLibm_atan2]
  exact Complex.abs_arg_le_pi _

/-- `cot φ + φ > π/2` on `(0, π/2)`. -/
lemma half_pi_lt_cot_add (phi : ℝ) (h0 : 0 < phi) (h1 : phi < Real.pi / 2) :
    Real.pi / 2 < 1 / Real.tan phi + phi := by
  have h := Real.lt_tan (show 0 < Real.pi / 2 - phi by linarith) (by linarith)
  rw [Real.tan_pi_div_two_sub, ← one_div] at h
  linarith

end Polar

section SpheroidRoundTrip

variable {En : Type}

/-- The general branch of the spherical forward kernel. -/
lemma s_forward_general (P : par_bonne ℝ En) (lon lat : ℝ)
    (h : (1e-10 : ℝ) < |P.cphi1 + P.phi1 - lat|) :
    s_forward realLibm P lon lat =
      ((P.cphi1 + P.phi1 - lat) * Real.sin (lon * Real.cos lat / (P.cphi1 + P.phi1 - lat)),
        P.cphi1 - (P.cphi1 + P.phi1 - lat) *
          Real.cos (lon * Real.cos lat / (P.cphi1 + P.phi1 - lat))) := by
  unfold s_forward
  simp only []
  rw [if_pos (show |P.cphi1 + P.phi1 - lat| > (EPS10 : ℝ) from h)]
  rfl

/-- The spherical inverse at a point given in polar form about `(0, cphi1)`. -/
lemma s_inverse_polar (P : par_bonne ℝ En) (rh E : ℝ) :
    s_inverse realLibm P (rh * Real.sin E) (P.cphi1 - rh * Real.cos E) =
      if |(P.cphi1 + P.phi1 - |rh|)| > Real.pi / 2 then Except.error Error.tolerance_condition
      else if |(|(P.cphi1 + P.phi1 - |rh|)| - Real.pi / 2)| ≤ 1e-10 then
        Except.ok (0, P.cphi1 + P.phi1 - |rh|)
      else
        Except.ok (|rh| * realLibm.atan2 (rh * Real.sin E) (rh * Real.cos E) /
          Real.cos (P.cphi1 + P.phi1 - |rh|), P.cphi1 + P.phi1 - |rh|) := by
  unfold s_inverse
  simp only [sub_sub_cancel, hypot_polar, realLibm_half_pi, realLibm_cos, EPS10_real]

/-- The spherical round trip when `cphi1 + phi1 ≥ π/2`. -/
lemma s_roundtrip_core (P : par_bonne ℝ En) (lon lat : ℝ)
    (hk : Real.pi / 2 ≤ P.cphi1 + P.phi1) (hlon : |lon| ≤ Real.pi)
    (hlat : |lat| < Real.pi / 2 - 1e-10) :
    (1e-10 : ℝ) < P.cphi1 + P.phi1 - lat ∧
      s_inverse realLibm P (s_forward realLibm P lon lat).1 (s_forward realLibm P lon lat).2 =
        Except.ok (lon, lat) := by
  have hpi := Real.pi_pos
  have heps : (0 : ℝ) < 1e-10 := by norm_num
  obtain ⟨hl1, hl2⟩ := abs_lt.mp hlat
  have hrh : (1e-10 : ℝ) < P.cphi1 + P.phi1 - lat := by linarith
  have hrh0 : 0 < P.cphi1 + P.phi1 - lat := by linarith
  refine ⟨hrh, ?_⟩
  have hcos : 0 < Real.cos lat := Real.cos_pos_of_mem_Ioo ⟨by linarith, by linarith⟩
  have hcoslt : Real.cos lat < P.cphi1 + P.phi1 - lat := by
    have := Real.sin_lt (show 0 < Real.pi / 2 - lat by linarith)
    rw [Real.sin_pi_div_two_sub] at this
    linarith
  -- the angle stays strictly inside (-π, π)
  have hE : |lon * Real.cos lat / (P.cphi1 + P.phi1 - lat)| < Real.pi := by
    rw [abs_div, abs_mul, abs_of_pos hcos, abs_of_pos hrh0, div_lt_iff₀ hrh0]
    calc |lon| * Real.cos lat ≤ Real.pi * Real.cos lat :=
          mul_le_mul_of_nonneg_right hlon hcos.le
      _ < Real.pi * (P.cphi1 + P.phi1 - lat) := mul_lt_mul_of_pos_left hcoslt hpi
  obtain ⟨hE1, hE2⟩ := abs_lt.mp hE
  rw [s_forward_general P lon lat (by rw [abs_of_pos hrh0]; exact hrh)]
  simp only []
  rw [s_inverse_polar, abs_of_pos hrh0, atan2_polar _ _ hrh0 hE1 hE2.le]
  have hlat' : P.cphi1 + P.phi1 - (P.cphi1 + P.phi1 - lat) = lat := by ring
  rw [hlat']
  rw [if_neg (by rw [gt_iff_lt, not_lt]; linarith [hlat.le]), if_neg]
  · congr 2
    field_simp
  · rw [not_le, abs_of_neg (by linarith)]
    linarith

end SpheroidRoundTrip

section SpheroidRoundTripClaims

variable {En : Type}

/-- C1 (amended): for the spherical kernel set up from a northern standard
parallel outside the band that setup snaps to the pole (`0 < phi1` and either
`phi1 < π/2 - 1e-10` or `phi1 = π/2`), and every `(lon, lat)` with `|lon| ≤ π`
and `|lat| < π/2 - 1e-10`, the cone radius has `|rh| > 1e-10` and the spherical
inverse of the spherical forward image is exactly `(lon, lat)`. -/
theorem s_roundtrip_northern (M : MeridianArc ℝ En) (par : Parameters ℝ)
    (proj_parm P : par_bonne ℝ En) (lon lat : ℝ)
    (hes : par.es = 0)
    (hset : setup_bonne realLibm M par proj_parm = Except.ok P)
    (hnorth : 0 < P.phi1)
    (hband : P.phi1 < Real.pi / 2 - 1e-10 ∨ P.phi1 = Real.pi / 2)
    (hlon : |lon| ≤ Real.pi) (hlat : |lat| < Real.pi / 2 - 1e-10) :
    |P.cphi1 + P.phi1 - lat| > 1e-10 ∧
      s_inverse realLibm P (s_forward realLibm P lon lat).1 (s_forward realLibm P lon lat).2 =
        Except.ok (lon, lat) := by
  have hpi := Real.pi_pos
  have heps : (0 : ℝ) < 1e-10 := by norm_num
  have hphi := setup_bonne_ok_abs M par proj_parm P hset
  rw [setup_bonne_sphere M par proj_parm hphi hes] at hset
  injection hset with hP
  subst hP
  simp only [] at hnorth hband ⊢
  have hk : Real.pi / 2 ≤
      (if |pj_get_param_r par.params "lat_1"| + 1e-10 ≥ Real.pi / 2 then (0 : ℝ)
        else 1 / Real.tan (pj_get_param_r par.params "lat_1")) +
        pj_get_param_r par.params "lat_1" := by
    rcases hband with hb | hb
    · rw [if_neg (by rw [abs_of_pos hnorth]; linarith)]
      exact (half_pi_lt_cot_add _ hnorth (by linarith)).le
    · rw [if_pos (by rw [abs_of_pos hnorth]; linarith)]
      linarith
  have h := s_roundtrip_core
    (⟨pj_get_param_r par.params "lat_1",
      if |pj_get_param_r par.params "lat_1"| + 1e-10 ≥ Real.pi / 2 then 0
      else 1 / Real.tan (pj_get_param_r par.params "lat_1"),
      proj_parm.am1, proj_parm.m1, proj_parm.en⟩ : par_bonne ℝ En) lon lat hk hlon hlat
  refine ⟨?_, h.2⟩
  have h1 := h.1
  simp only [] at h1
  rw [abs_of_pos (by linarith)]
  exact h1

/-- Setup on the sphere with `lat_1 = 1` radian. -/
lemma setup_bonne_one (M : MeridianArc ℝ En) (proj_parm : par_bonne ℝ En) :
    setup_bonne realLibm M ⟨[("lat_1", 1)], 0⟩ proj_parm =
      Except.ok ⟨1, 1 / Real.tan 1, proj_parm.am1, proj_parm.m1, proj_parm.en⟩ := by
  have hpi := Real.pi_gt_three
  have h1 : pj_get_param_r [("lat_1", (1 : ℝ))] "lat_1" = 1 := by
    simp [pj_get_param_r, List.lookup]
  have hphi : (1e-10 : ℝ) ≤ |pj_get_param_r [("lat_1", (1 : ℝ))] "lat_1"| := by
    rw [h1]; norm_num
  rw [setup_bonne_sphere M ⟨[("lat_1", 1)], 0⟩ proj_parm hphi rfl]
  simp only [h1]
  rw [if_neg]
  rw [abs_one]
  norm_num
  linarith

/-- C1 (amended) at `lat_1 = 1` radian, `(lon, lat) = (1, 1/2)`. -/
theorem s_roundtrip_northern_witness :
    setup_bonne realLibm (linearArc ℝ) ⟨[("lat_1", 1)], 0⟩ ⟨0, 0, 0, 0, 0⟩ =
        Except.ok ⟨1, 1 / Real.tan 1, 0, 0, 0⟩ ∧
      s_inverse realLibm (⟨1, 1 / Real.tan 1, 0, 0, 0⟩ : par_bonne ℝ ℝ)
          (s_forward realLibm (⟨1, 1 / Real.tan 1, 0, 0, 0⟩ : par_bonne ℝ ℝ) 1 (1 / 2)).1
          (s_forward realLibm (⟨1, 1 / Real.tan 1, 0, 0, 0⟩ : par_bonne ℝ ℝ) 1 (1 / 2)).2 =
        Except.ok (1, 1 / 2) := by
  have hpi := Real.pi_gt_three
  refine ⟨setup_bonne_one (linearArc ℝ) ⟨0, 0, 0, 0, 0⟩, ?_⟩
  refine (s_roundtrip_northern (linearArc ℝ) ⟨[("lat_1", 1)], 0⟩ ⟨0, 0, 0, 0, 0⟩
    ⟨1, 1 / Real.tan 1, 0, 0, 0⟩ 1 (1 / 2) rfl (setup_bonne_one (linearArc ℝ) ⟨0, 0, 0, 0, 0⟩)
    (by norm_num) (Or.inl ?_) ?_ ?_).2
  · show (1 : ℝ) < Real.pi / 2 - 1e-10
    norm_num; linarith
  · rw [abs_one]; linarith
  · rw [abs_of_pos (by norm_num)]
    norm_num; linarith

end SpheroidRoundTripClaims

section SpheroidRoundTripFailures

variable {En : Type}

/-- Setup on the sphere with the southern parallel `lat_1 = -1` radian. -/
lemma setup_bonne_neg_one (M : MeridianArc ℝ En) (proj_parm : par_bonne ℝ En) :
    setup_bonne realLibm M ⟨[("lat_1", -1)], 0⟩ proj_parm =
      Except.ok ⟨-1, 1 / Real.tan (-1), proj_parm.am1, proj_parm.m1, proj_parm.en⟩ := by
  have hpi := Real.pi_gt_three
  have h1 : pj_get_param_r [("lat_1", (-1 : ℝ))] "lat_1" = -1 := by
    simp [pj_get_param_r, List.lookup]
  have hphi : (1e-10 : ℝ) ≤ |pj_get_param_r [("lat_1", (-1 : ℝ))] "lat_1"| := by
    rw [h1]; norm_num
  rw [setup_bonne_sphere M ⟨[("lat_1", -1)], 0⟩ proj_parm hphi rfl]
  simp only [h1]
  rw [if_neg]
  rw [abs_neg, abs_one]
  norm_num
  linarith

/-- Setup on the sphere with `lat_1 = π/2 - 1e-10`, which setup snaps to the
pole: `cphi1 = 0`. -/
lemma setup_bonne_near_pole (M : MeridianArc ℝ En) (proj_parm : par_bonne ℝ En) :
    setup_bonne realLibm M ⟨[("lat_1", Real.pi / 2 - 1e-10)], 0⟩ proj_parm =
      Except.ok ⟨Real.pi / 2 - 1e-10, 0, proj_parm.am1, proj_parm.m1, proj_parm.en⟩ := by
  have hpi := Real.pi_gt_three
  have h1 : pj_get_param_r [("lat_1", (Real.pi / 2 - 1e-10 : ℝ))] "lat_1"
      = Real.pi / 2 - 1e-10 := by
    simp [pj_get_param_r, List.lookup]
  have hpos : (0 : ℝ) < Real.pi / 2 - 1e-10 := by norm_num; linarith
  have hphi : (1e-10 : ℝ) ≤
      |pj_get_param_r [("lat_1", (Real.pi / 2 - 1e-10 : ℝ))] "lat_1"| := by
    rw [h1, abs_of_pos hpos]; norm_num; linarith
  rw [setup_bonne_sphere M ⟨[("lat_1", Real.pi / 2 - 1e-10)], 0⟩ proj_parm hphi rfl]
  simp only [h1]
  rw [if_pos]
  rw [abs_of_pos hpos]
  linarith

lemma cot_neg_one_lt : 1 / Real.tan (-1) < 0 := by
  have hpi := Real.pi_gt_three
  have := Real.tan_pos_of_pos_of_lt_pi_div_two (show (0 : ℝ) < 1 by norm_num) (by linarith)
  rw [Real.tan_neg]
  exact div_neg_of_pos_of_neg one_pos (by linarith)

/-- A southern parallel: the image of `(0, 0)` under the spherical forward kernel
is rejected by the spherical inverse. -/
lemma s_roundtrip_southern_fails (P : par_bonne ℝ En) (hphi : P.phi1 = -1)
    (hc : P.cphi1 = 1 / Real.tan (-1)) :
    |P.cphi1 + P.phi1 - 0| > 1e-10 ∧
      s_inverse realLibm P (s_forward realLibm P 0 0).1 (s_forward realLibm P 0 0).2 =
        Except.error Error.tolerance_condition := by
  have hpi := Real.pi_le_four
  have hcot := cot_neg_one_lt
  have hk : P.cphi1 + P.phi1 - 0 < -1 := by rw [hphi, hc]; linarith
  have habs : |P.cphi1 + P.phi1 - 0| = -(P.cphi1 + P.phi1 - 0) := abs_of_neg (by linarith)
  have hgt : |P.cphi1 + P.phi1 - 0| > 1e-10 := by
    rw [habs]; norm_num; linarith
  refine ⟨hgt, ?_⟩
  rw [s_forward_general P 0 0 hgt]
  simp only []
  rw [s_inverse_polar, habs, if_pos]
  rw [abs_of_neg (by linarith)]
  linarith

end SpheroidRoundTripFailures

section SpheroidRoundTripBand

variable {En : Type}

lemma two_lt_sin_three : (2e-10 : ℝ) < Real.sin 3e-10 := by
  have h := Real.sin_gt_sub_cube (show (0 : ℝ) < 3e-10 by norm_num) (by norm_num)
  have : (2e-10 : ℝ) < 3e-10 - 3e-10 ^ 3 / 4 := by norm_num
  linarith

/-- A parallel that setup snaps to the pole: with `phi1 = π/2 - 1e-10` setup
stores `cphi1 = 0`, and the image of `(π, π/2 - 3e-10)` comes back with a
longitude of absolute value below `π`. -/
lemma s_roundtrip_near_pole_fails (P : par_bonne ℝ En) (hphi : P.phi1 = Real.pi / 2 - 1e-10)
    (hc : P.cphi1 = 0) :
    |P.cphi1 + P.phi1 - (Real.pi / 2 - 3e-10)| > 1e-10 ∧
      s_inverse realLibm P (s_forward realLibm P Real.pi (Real.pi / 2 - 3e-10)).1
          (s_forward realLibm P Real.pi (Real.pi / 2 - 3e-10)).2 ≠
        Except.ok (Real.pi, Real.pi / 2 - 3e-10) := by
  have hpi := Real.pi_gt_three
  have hrh : P.cphi1 + P.phi1 - (Real.pi / 2 - 3e-10) = 2e-10 := by
    rw [hphi, hc]; norm_num
  have hk : P.cphi1 + P.phi1 - |(2e-10 : ℝ)| = Real.pi / 2 - 3e-10 := by
    rw [hphi, hc, abs_of_pos (by norm_num)]; norm_num; ring_nf
  have hgt : |P.cphi1 + P.phi1 - (Real.pi / 2 - 3e-10)| > 1e-10 := by
    rw [hrh, abs_of_pos (by norm_num)]; norm_num
  refine ⟨hgt, ?_⟩
  rw [s_forward_general P _ _ hgt]
  simp only []
  rw [hrh, s_inverse_polar, hk]
  have hlatpos : (0 : ℝ) < Real.pi / 2 - 3e-10 := by norm_num; linarith
  rw [abs_of_pos hlatpos, if_neg (by norm_num), if_neg (by
    rw [abs_of_neg (by norm_num)]; norm_num)]
  intro heq
  injection heq with heq
  injection heq with hlon _
  have hcos : Real.cos (Real.pi / 2 - 3e-10) = Real.sin 3e-10 := Real.cos_pi_div_two_sub _
  have hsin := two_lt_sin_three
  have hsin0 : (0 : ℝ) < Real.sin 3e-10 := lt_trans (by norm_num) hsin
  have hth := abs_atan2_le
    (2e-10 * Real.sin (Real.pi * Real.cos (Real.pi / 2 - 3e-10) / 2e-10))
    (2e-10 * Real.cos (Real.pi * Real.cos (Real.pi / 2 - 3e-10) / 2e-10))
  rw [hcos, abs_of_pos (by norm_num), div_eq_iff hsin0.ne.symm] at hlon
  have hth2 := (abs_le.mp hth).2
  have h2 : (0 : ℝ) < 2e-10 := by norm_num
  have h3 := mul_lt_mul_of_pos_left hsin Real.pi_pos
  have h4 := mul_le_mul_of_nonneg_left hth2 h2.le
  rw [hcos] at h4
  linarith

/-- C1 (counterexample): two valid standard parallels at which the spherical
round trip fails. With the southern parallel `lat_1 = -1` radian the image of
`(0, 0)` is rejected by the inverse (`error_tolerance_condition`); with
`lat_1 = π/2 - 1e-10`, which setup snaps to the pole, the image of
`(π, π/2 - 3e-10)` does not come back as `(π, π/2 - 3e-10)`. In both cases
`1e-10 ≤ |phi1| ≤ π/2`, `|lon| ≤ π`, `|lat| < π/2 - 1e-10` and `|rh| > 1e-10`. -/
theorem s_roundtrip_fails :
    (setup_bonne realLibm (linearArc ℝ) ⟨[("lat_1", -1)], 0⟩ ⟨0, 0, 0, 0, 0⟩ =
        Except.ok ⟨-1, 1 / Real.tan (-1), 0, 0, 0⟩ ∧
      (1e-10 : ℝ) ≤ |(-1 : ℝ)| ∧ |(-1 : ℝ)| ≤ Real.pi / 2 ∧
      |(0 : ℝ)| ≤ Real.pi ∧ |(0 : ℝ)| < Real.pi / 2 - 1e-10 ∧
      |1 / Real.tan (-1) + (-1) - 0| > 1e-10 ∧
      s_inverse realLibm (⟨-1, 1 / Real.tan (-1), 0, 0, 0⟩ : par_bonne ℝ ℝ)
          (s_forward realLibm (⟨-1, 1 / Real.tan (-1), 0, 0, 0⟩ : par_bonne ℝ ℝ) 0 0).1
          (s_forward realLibm (⟨-1, 1 / Real.tan (-1), 0, 0, 0⟩ : par_bonne ℝ ℝ) 0 0).2 =
        Except.error Error.tolerance_condition) ∧
    (setup_bonne realLibm (linearArc ℝ) ⟨[("lat_1", Real.pi / 2 - 1e-10)], 0⟩ ⟨0, 0, 0, 0, 0⟩ =
        Except.ok ⟨Real.pi / 2 - 1e-10, 0, 0, 0, 0⟩ ∧
      (1e-10 : ℝ) ≤ |Real.pi / 2 - 1e-10| ∧ |Real.pi / 2 - 1e-10| ≤ Real.pi / 2 ∧
      |Real.pi| ≤ Real.pi ∧ |Real.pi / 2 - 3e-10| < Real.pi / 2 - 1e-10 ∧
      |0 + (Real.pi / 2 - 1e-10) - (Real.pi / 2 - 3e-10)| > 1e-10 ∧
      s_inverse realLibm (⟨Real.pi / 2 - 1e-10, 0, 0, 0, 0⟩ : par_bonne ℝ ℝ)
          (s_forward realLibm (⟨Real.pi / 2 - 1e-10, 0, 0, 0, 0⟩ : par_bonne ℝ ℝ)
            Real.pi (Real.pi / 2 - 3e-10)).1
          (s_forward realLibm (⟨Real.pi / 2 - 1e-10, 0, 0, 0, 0⟩ : par_bonne ℝ ℝ)
            Real.pi (Real.pi / 2 - 3e-10)).2 ≠
        Except.ok (Real.pi, Real.pi / 2 - 3e-10)) := by
  have hpi := Real.pi_gt_three
  have hs := s_roundtrip_southern_fails (⟨-1, 1 / Real.tan (-1), 0, 0, 0⟩ : par_bonne ℝ ℝ)
    rfl rfl
  have hn := s_roundtrip_near_pole_fails (⟨Real.pi / 2 - 1e-10, 0, 0, 0, 0⟩ : par_bonne ℝ ℝ)
    rfl rfl
  have hp1 : (0 : ℝ) < Real.pi / 2 - 1e-10 := by norm_num; linarith
  have hp3 : (0 : ℝ) < Real.pi / 2 - 3e-10 := by norm_num; linarith
  refine ⟨⟨setup_bonne_neg_one _ _, by norm_num, ?_, ?_, ?_, hs.1, hs.2⟩,
    ⟨setup_bonne_near_pole _ _, ?_, ?_, ?_, ?_, hn.1, hn.2⟩⟩
  · rw [abs_neg, abs_one]; linarith
  · rw [abs_zero]; linarith
  · rw [abs_zero]; exact hp1
  · rw [abs_of_pos hp1]; norm_num; linarith
  · rw [abs_of_pos hp1]; norm_num
  · rw [abs_of_pos Real.pi_pos]
  · rw [abs_of_pos hp3]; norm_num

end SpheroidRoundTripBand

section EllipsoidRoundTrip

variable {En : Type}

/-- The ellipsoidal forward kernel in terms of its cone radius and angle. -/
lemma e_forward_eq (M : MeridianArc ℝ En) (par : Parameters ℝ) (P : par_bonne ℝ En)
    (lon lat : ℝ) :
    e_forward realLibm M par P lon lat =
      (e_forward_rh realLibm M P lat * Real.sin (e_forward_E realLibm M par P lon lat),
        P.am1 - e_forward_rh realLibm M P lat *
          Real.cos (e_forward_E realLibm M par P lon lat)) := rfl

/-- The latitude recovered at a point given in polar form about `(0, am1)`. -/
lemma e_inverse_lat_polar (M : MeridianArc ℝ En) (par : Parameters ℝ) (P : par_bonne ℝ En)
    (rh E : ℝ) :
    e_inverse_lat realLibm M par P (rh * Real.sin E) (P.am1 - rh * Real.cos E) =
      M.pj_inv_mlfn (P.am1 + P.m1 - |rh|) par.es P.en := by
  unfold e_inverse_lat
  rw [sub_sub_cancel, hypot_polar]

/-- The ellipsoidal round trip at a point whose cone radius is positive and whose
angle lies in `(-π, π]`. -/
lemma e_roundtrip_core (M : MeridianArc ℝ En) (par : Parameters ℝ) (P : par_bonne ℝ En)
    (lon lat : ℝ)
    (hinv : M.pj_inv_mlfn (M.pj_mlfn lat (Real.sin lat) (Real.cos lat) P.en) par.es P.en = lat)
    (hes : par.es < 1) (hlat : |lat| < Real.pi / 2)
    (hrh : 0 < e_forward_rh realLibm M P lat)
    (hE1 : -Real.pi < e_forward_E realLibm M par P lon lat)
    (hE2 : e_forward_E realLibm M par P lon lat ≤ Real.pi) :
    e_inverse realLibm M par P (e_forward realLibm M par P lon lat).1
        (e_forward realLibm M par P lon lat).2 = Except.ok (lon, lat) := by
  rw [e_forward_eq]
  simp only []
  have hl : e_inverse_lat realLibm M par P
      (e_forward_rh realLibm M P lat * Real.sin (e_forward_E realLibm M par P lon lat))
      (P.am1 - e_forward_rh realLibm M P lat *
        Real.cos (e_forward_E realLibm M par P lon lat)) = lat := by
    rw [e_inverse_lat_polar, abs_of_pos hrh]
    unfold e_forward_rh
    rw [sub_sub_cancel]
    exact hinv
  rw [e_inverse_lt M par P _ _ (by rw [hl]; exact hlat), hl]
  congr 2
  unfold e_inverse_lon
  rw [hl, sub_sub_cancel, hypot_polar, abs_of_pos hrh, atan2_polar _ _ hrh hE1 hE2]
  have hcos : 0 < Real.cos lat :=
    Real.cos_pos_of_mem_Ioo ⟨by linarith [(abs_lt.mp hlat).1], (abs_lt.mp hlat).2⟩
  have hsq := Real.sqrt_pos.mpr (one_sub_es_sin_sq_pos par.es lat hes)
  simp only [realLibm_sqrt, realLibm_sin, realLibm_cos]
  unfold e_forward_E
  simp only [realLibm_sqrt, realLibm_sin, realLibm_cos]
  field_simp
  ring

/-- C2 (amended): assume `pj_inv_mlfn` is the exact inverse of `pj_mlfn` on
`[-π/2, π/2]`. For the ellipsoidal kernel set up with `0 < es < 1` from a
standard parallel with `1e-10 ≤ |phi1| ≤ π/2`, and for every
`(lon, lat)` with `|lat| < π/2`, a positive forward cone radius
`rh = am1 + m1 - pj_mlfn(lat) > 0` and a forward angle
`E = cos(lat) lon / (rh sqrt(1 - es sin²(lat)))` in `(-π, π]`, the ellipsoidal
inverse of the ellipsoidal forward image is exactly `(lon, lat)`. -/
theorem e_roundtrip (M : MeridianArc ℝ En) (par : Parameters ℝ)
    (proj_parm P : par_bonne ℝ En) (lon lat : ℝ)
    (hinv : ∀ phi : ℝ, |phi| ≤ Real.pi / 2 →
      M.pj_inv_mlfn (M.pj_mlfn phi (Real.sin phi) (Real.cos phi) (M.pj_enfn par.es))
        par.es (M.pj_enfn par.es) = phi)
    (hes0 : 0 < par.es) (hes1 : par.es < 1)
    (hset : setup_bonne realLibm M par proj_parm = Except.ok P)
    (_hphi1 : |P.phi1| ≤ Real.pi / 2)
    (hlat : |lat| < Real.pi / 2)
    (hrh : 0 < e_forward_rh realLibm M P lat)
    (hE : -Real.pi < e_forward_E realLibm M par P lon lat ∧
      e_forward_E realLibm M par P lon lat ≤ Real.pi) :
    e_inverse realLibm M par P (e_forward realLibm M par P lon lat).1
        (e_forward realLibm M par P lon lat).2 = Except.ok (lon, lat) := by
  have hphi := setup_bonne_ok_abs M par proj_parm P hset
  have hen : P.en = M.pj_enfn par.es := by
    rw [setup_bonne_ellipsoid M par proj_parm hphi hes0.ne.symm] at hset
    injection hset with hP
    rw [← hP]
  refine e_roundtrip_core M par P lon lat ?_ hes1 hlat hrh hE.1 hE.2
  rw [hen]
  exact hinv lat hlat.le

end EllipsoidRoundTrip

section EllipsoidRoundTripExamples

/-- `linearArc` meets the assumption made on the collaborator: its
`pj_inv_mlfn` inverts its `pj_mlfn` (for `es ≠ 1`). -/
lemma linearArc_inverse (es : ℝ) (hes : es ≠ 1) (phi : ℝ) :
    (linearArc ℝ).pj_inv_mlfn
      ((linearArc ℝ).pj_mlfn phi (Real.sin phi) (Real.cos phi) ((linearArc ℝ).pj_enfn es))
      es ((linearArc ℝ).pj_enfn es) = phi := by
  simp only [linearArc]
  have : (1 : ℝ) - es ≠ 0 := sub_ne_zero.mpr hes.symm
  field_simp

/-- Setup on `linearArc` with `es = 1/2`, for a parallel that passes the
degenerate-parallel check. -/
lemma setup_bonne_linearArc (phi1 : ℝ) (hphi : (1e-10 : ℝ) ≤ |phi1|)
    (proj_parm : par_bonne ℝ ℝ) :
    setup_bonne realLibm (linearArc ℝ) ⟨[("lat_1", phi1)], 1 / 2⟩ proj_parm =
      Except.ok ⟨phi1, proj_parm.cphi1,
        Real.cos phi1 / (Real.sqrt (1 - 1 / 2 * Real.sin phi1 * Real.sin phi1) * Real.sin phi1),
        (1 - 1 / 2) * phi1, 1 - 1 / 2⟩ := by
  have h1 : pj_get_param_r [("lat_1", phi1)] "lat_1" = phi1 := by
    simp [pj_get_param_r, List.lookup]
  rw [setup_bonne_ellipsoid (linearArc ℝ) ⟨[("lat_1", phi1)], 1 / 2⟩ proj_parm
    (by rw [h1]; exact hphi) (by norm_num)]
  simp only [h1, linearArc]

/-- C2 (amended) on `linearArc` with `es = 1/2`, `lat_1 = 1` radian,
`(lon, lat) = (1/2, 0)`. -/
theorem e_roundtrip_witness :
    ∃ P, setup_bonne realLibm (linearArc ℝ) ⟨[("lat_1", 1)], 1 / 2⟩ ⟨0, 0, 0, 0, 0⟩ =
        Except.ok P ∧
      e_inverse realLibm (linearArc ℝ) ⟨[("lat_1", 1)], 1 / 2⟩ P
          (e_forward realLibm (linearArc ℝ) ⟨[("lat_1", 1)], 1 / 2⟩ P (1 / 2) 0).1
          (e_forward realLibm (linearArc ℝ) ⟨[("lat_1", 1)], 1 / 2⟩ P (1 / 2) 0).2 =
        Except.ok (1 / 2, 0) := by
  have hpi := Real.pi_gt_three
  have hset := setup_bonne_linearArc 1 (by norm_num) ⟨0, 0, 0, 0, 0⟩
  have hsin : 0 < Real.sin 1 := Real.sin_pos_of_pos_of_lt_pi one_pos (by linarith)
  have hcos : 0 < Real.cos 1 := Real.cos_pos_of_mem_Ioo ⟨by linarith, by linarith⟩
  have hsq := Real.sqrt_pos.mpr (one_sub_es_sin_sq_pos (1 / 2) 1 (by norm_num))
  have ham1 : 0 < Real.cos 1 / (Real.sqrt (1 - 1 / 2 * Real.sin 1 * Real.sin 1) * Real.sin 1) :=
    div_pos hcos (mul_pos hsq hsin)
  refine ⟨_, hset, ?_⟩
  have hrh : (1 / 2 : ℝ) < e_forward_rh realLibm (linearArc ℝ)
      (⟨1, 0, Real.cos 1 / (Real.sqrt (1 - 1 / 2 * Real.sin 1 * Real.sin 1) * Real.sin 1),
        (1 - 1 / 2) * 1, 1 - 1 / 2⟩ : par_bonne ℝ ℝ) 0 := by
    simp only [e_forward_rh, linearArc]
    norm_num
    exact ham1
  have hE : e_forward_E realLibm (linearArc ℝ) ⟨[("lat_1", 1)], 1 / 2⟩
      (⟨1, 0, Real.cos 1 / (Real.sqrt (1 - 1 / 2 * Real.sin 1 * Real.sin 1) * Real.sin 1),
        (1 - 1 / 2) * 1, 1 - 1 / 2⟩ : par_bonne ℝ ℝ) (1 / 2) 0 =
      1 / 2 / e_forward_rh realLibm (linearArc ℝ)
      (⟨1, 0, Real.cos 1 / (Real.sqrt (1 - 1 / 2 * Real.sin 1 * Real.sin 1) * Real.sin 1),
        (1 - 1 / 2) * 1, 1 - 1 / 2⟩ : par_bonne ℝ ℝ) 0 := by
    unfold e_forward_E
    simp
  refine e_roundtrip (linearArc ℝ) ⟨[("lat_1", 1)], 1 / 2⟩ ⟨0, 0, 0, 0, 0⟩ _ (1 / 2) 0
    (fun phi _ => linearArc_inverse (1 / 2) (by norm_num) phi) (by norm_num) (by norm_num)
    hset (by show |(1 : ℝ)| ≤ Real.pi / 2; rw [abs_one]; linarith)
    (by rw [abs_zero]; linarith) (by linarith) ?_
  rw [hE]
  have hpos : 0 < 1 / 2 / e_forward_rh realLibm (linearArc ℝ)
      (⟨1, 0, Real.cos 1 / (Real.sqrt (1 - 1 / 2 * Real.sin 1 * Real.sin 1) * Real.sin 1),
        (1 - 1 / 2) * 1, 1 - 1 / 2⟩ : par_bonne ℝ ℝ) 0 := div_pos (by norm_num) (by linarith)
  have hlt : 1 / 2 / e_forward_rh realLibm (linearArc ℝ)
      (⟨1, 0, Real.cos 1 / (Real.sqrt (1 - 1 / 2 * Real.sin 1 * Real.sin 1) * Real.sin 1),
        (1 - 1 / 2) * 1, 1 - 1 / 2⟩ : par_bonne ℝ ℝ) 0 < 1 := by
    rw [div_lt_one (by linarith)]; exact hrh
  exact ⟨by linarith, by linarith⟩

end EllipsoidRoundTripExamples

section EllipsoidRoundTripFailures

/-- A southern parallel on `linearArc` with `es = 1/2`: a negative `am1` and
`m1 = -1/2` give a negative cone radius at `lat = 0`, and the image of `(0, 0)`
is rejected by the ellipsoidal inverse. -/
lemma e_roundtrip_southern_fails (par : Parameters ℝ) (P : par_bonne ℝ ℝ)
    (ham1 : P.am1 < 0) (hm1 : P.m1 = -(1 / 2)) (hen : P.en = 1 / 2) :
    e_forward_rh realLibm (linearArc ℝ) P 0 ≠ 0 ∧
      e_inverse realLibm (linearArc ℝ) par P
          (e_forward realLibm (linearArc ℝ) par P 0 0).1
          (e_forward realLibm (linearArc ℝ) par P 0 0).2 =
        Except.error Error.tolerance_condition := by
  have hpi := Real.pi_lt_d2
  have hrh : e_forward_rh realLibm (linearArc ℝ) P 0 = P.am1 - 1 / 2 := by
    simp only [e_forward_rh, linearArc, hm1, hen]
    ring
  refine ⟨by rw [hrh]; linarith, ?_⟩
  rw [e_forward_eq]
  simp only []
  apply e_inverse_beyond
  rw [e_inverse_lat_polar, hrh, abs_of_neg (show P.am1 - 1 / 2 < 0 by linarith)]
  have hval : (linearArc ℝ).pj_inv_mlfn (P.am1 + P.m1 - -(P.am1 - 1 / 2)) par.es P.en =
      4 * P.am1 - 2 := by
    simp only [linearArc, hm1, hen]
    ring
  rw [hval, abs_of_neg (by linarith)]
  norm_num at hpi ⊢
  linarith

/-- An angle outside `(-π, π]`, on `linearArc` with `es = 1/2` and the
Werner bundle `am1 = 0`, `m1 = π/4`: the cone radius at `lat = 0` is `π/4`, and
the longitude that comes back has absolute value at most `π²/4 < π`. -/
lemma e_roundtrip_wrap_fails (par : Parameters ℝ) (P : par_bonne ℝ ℝ)
    (ham1 : P.am1 = 0) (hm1 : P.m1 = Real.pi / 4) (hen : P.en = 1 / 2) :
    e_forward_rh realLibm (linearArc ℝ) P 0 ≠ 0 ∧
      e_inverse realLibm (linearArc ℝ) par P
          (e_forward realLibm (linearArc ℝ) par P Real.pi 0).1
          (e_forward realLibm (linearArc ℝ) par P Real.pi 0).2 ≠
        Except.ok (Real.pi, 0) := by
  have hpi := Real.pi_lt_d2
  have hpi0 := Real.pi_pos
  have hrh : e_forward_rh realLibm (linearArc ℝ) P 0 = Real.pi / 4 := by
    simp only [e_forward_rh, linearArc, ham1, hm1, hen]
    ring
  refine ⟨by rw [hrh]; positivity, ?_⟩
  rw [e_forward_eq]
  simp only []
  rw [hrh]
  have hl : e_inverse_lat realLibm (linearArc ℝ) par P
      (Real.pi / 4 * Real.sin (e_forward_E realLibm (linearArc ℝ) par P Real.pi 0))
      (P.am1 - Real.pi / 4 * Real.cos (e_forward_E realLibm (linearArc ℝ) par P Real.pi 0))
      = 0 := by
    rw [e_inverse_lat_polar, abs_of_pos (by positivity)]
    simp only [linearArc, ham1, hm1, hen]
    norm_num
  rw [e_inverse_lt _ _ _ _ _ (by rw [hl, abs_zero]; positivity), hl]
  intro heq
  injection heq with heq
  injection heq with hlon _
  unfold e_inverse_lon at hlon
  rw [hl, sub_sub_cancel, hypot_polar, abs_of_pos (by positivity)] at hlon
  simp only [realLibm_sqrt, realLibm_sin, realLibm_cos, Real.sin_zero, Real.cos_zero,
    mul_zero, sub_zero, Real.sqrt_one, mul_one, div_one] at hlon
  have hth := (abs_le.mp (abs_atan2_le
    (Real.pi / 4 * Real.sin (e_forward_E realLibm (linearArc ℝ) par P Real.pi 0))
    (Real.pi / 4 * Real.cos (e_forward_E realLibm (linearArc ℝ) par P Real.pi 0)))).2
  have h4 := mul_le_mul_of_nonneg_left hth (show (0 : ℝ) ≤ Real.pi / 4 by positivity)
  rw [hlon] at h4
  nlinarith

/-- C2 (counterexample): on the collaborator `linearArc`, whose `pj_inv_mlfn` is
the exact inverse of its `pj_mlfn`, with `es = 1/2`. With the southern parallel
`lat_1 = -1` radian the cone radius at `lat = 0` is non-zero and the image of
`(0, 0)` is rejected by the inverse (`error_tolerance_condition`); with
`lat_1 = π/2` the cone radius at `lat = 0` is non-zero and the image of `(π, 0)`
does not come back as `(π, 0)`. -/
theorem e_roundtrip_fails :
    (∀ phi : ℝ, |phi| ≤ Real.pi / 2 →
        (linearArc ℝ).pj_inv_mlfn
          ((linearArc ℝ).pj_mlfn phi (Real.sin phi) (Real.cos phi)
            ((linearArc ℝ).pj_enfn (1 / 2)))
          (1 / 2) ((linearArc ℝ).pj_enfn (1 / 2)) = phi) ∧
    (∃ P, setup_bonne realLibm (linearArc ℝ) ⟨[("lat_1", -1)], 1 / 2⟩ ⟨0, 0, 0, 0, 0⟩ =
          Except.ok P ∧
        (1e-10 : ℝ) ≤ |P.phi1| ∧ |P.phi1| ≤ Real.pi / 2 ∧
        |(0 : ℝ)| ≤ Real.pi ∧ |(0 : ℝ)| < Real.pi / 2 ∧
        e_forward_rh realLibm (linearArc ℝ) P 0 ≠ 0 ∧
        e_inverse realLibm (linearArc ℝ) ⟨[("lat_1", -1)], 1 / 2⟩ P
            (e_forward realLibm (linearArc ℝ) ⟨[("lat_1", -1)], 1 / 2⟩ P 0 0).1
            (e_forward realLibm (linearArc ℝ) ⟨[("lat_1", -1)], 1 / 2⟩ P 0 0).2 =
          Except.error Error.tolerance_condition) ∧
    (∃ P, setup_bonne realLibm (linearArc ℝ) ⟨[("lat_1", Real.pi / 2)], 1 / 2⟩
            ⟨0, 0, 0, 0, 0⟩ = Except.ok P ∧
        (1e-10 : ℝ) ≤ |P.phi1| ∧ |P.phi1| ≤ Real.pi / 2 ∧
        |Real.pi| ≤ Real.pi ∧ |(0 : ℝ)| < Real.pi / 2 ∧
        e_forward_rh realLibm (linearArc ℝ) P 0 ≠ 0 ∧
        e_inverse realLibm (linearArc ℝ) ⟨[("lat_1", Real.pi / 2)], 1 / 2⟩ P
            (e_forward realLibm (linearArc ℝ) ⟨[("lat_1", Real.pi / 2)], 1 / 2⟩ P Real.pi 0).1
            (e_forward realLibm (linearArc ℝ) ⟨[("lat_1", Real.pi / 2)], 1 / 2⟩ P Real.pi 0).2 ≠
          Except.ok (Real.pi, 0)) := by
  have hpi := Real.pi_gt_three
  have hhalf : (0 : ℝ) < Real.pi / 2 := by positivity
  refine ⟨fun phi _ => linearArc_inverse (1 / 2) (by norm_num) phi, ?_, ?_⟩
  · have hset := setup_bonne_linearArc (-1) (by norm_num) ⟨0, 0, 0, 0, 0⟩
    have hsin : 0 < Real.sin 1 := Real.sin_pos_of_pos_of_lt_pi one_pos (by linarith)
    have hcos : 0 < Real.cos 1 := Real.cos_pos_of_mem_Ioo ⟨by linarith, by linarith⟩
    have hsq := Real.sqrt_pos.mpr (one_sub_es_sin_sq_pos (1 / 2) (-1) (by norm_num))
    have ham1 : Real.cos (-1) /
        (Real.sqrt (1 - 1 / 2 * Real.sin (-1) * Real.sin (-1)) * Real.sin (-1)) < 0 := by
      apply div_neg_of_pos_of_neg
      · rw [Real.cos_neg]; exact hcos
      · apply mul_neg_of_pos_of_neg hsq
        rw [Real.sin_neg]; linarith
    have h := e_roundtrip_southern_fails ⟨[("lat_1", -1)], 1 / 2⟩
      (⟨-1, 0, Real.cos (-1) /
        (Real.sqrt (1 - 1 / 2 * Real.sin (-1) * Real.sin (-1)) * Real.sin (-1)),
        (1 - 1 / 2) * (-1), 1 - 1 / 2⟩ : par_bonne ℝ ℝ) ham1 (by norm_num) (by norm_num)
    refine ⟨_, hset, ?_, ?_, ?_, ?_, h.1, h.2⟩
    · show (1e-10 : ℝ) ≤ |(-1 : ℝ)|
      norm_num
    · show |(-1 : ℝ)| ≤ Real.pi / 2
      rw [abs_neg, abs_one]; linarith
    · rw [abs_zero]; linarith
    · rw [abs_zero]; exact hhalf
  · have hset := setup_bonne_linearArc (Real.pi / 2)
      (by rw [abs_of_pos hhalf]; norm_num; linarith) ⟨0, 0, 0, 0, 0⟩
    have h := e_roundtrip_wrap_fails ⟨[("lat_1", Real.pi / 2)], 1 / 2⟩
      (⟨Real.pi / 2, 0, Real.cos (Real.pi / 2) /
        (Real.sqrt (1 - 1 / 2 * Real.sin (Real.pi / 2) * Real.sin (Real.pi / 2)) *
          Real.sin (Real.pi / 2)),
        (1 - 1 / 2) * (Real.pi / 2), 1 - 1 / 2⟩ : par_bonne ℝ ℝ)
      (by simp) (by show (1 - 1 / 2) * (Real.pi / 2) = Real.pi / 4; ring) (by norm_num)
    refine ⟨_, hset, ?_, ?_, ?_, ?_, h.1, h.2⟩
    · show (1e-10 : ℝ) ≤ |Real.pi / 2|
      rw [abs_of_pos hhalf]; norm_num; linarith
    · show |Real.pi / 2| ≤ Real.pi / 2
      rw [abs_of_pos hhalf]
    · rw [abs_of_pos Real.pi_pos]
    · rw [abs_zero]; exact hhalf

end EllipsoidRoundTripFailures

/-! ## The spherical inverse on success, symmetry, and the divisions of the inverses -/

section InverseResults

variable {En : Type}

/-- C11: when the recovered latitude `lat = cphi1 + phi1 - hypot(x, cphi1 - y)`
has `|lat| ≤ π/2`, the spherical inverse returns that `lat`, with `lon = 0` when
`||lat| - π/2| ≤ 1e-10` and `lon = hypot(x, cphi1 - y) atan2(x, cphi1 - y) / cos(lat)`
otherwise. -/
theorem s_inverse_ok (P : par_bonne ℝ En) (x y : ℝ)
    (h : |P.cphi1 + P.phi1 - realLibm.hypot x (P.cphi1 - y)| ≤ Real.pi / 2) :
    s_inverse realLibm P x y =
      Except.ok
        (if |(|P.cphi1 + P.phi1 - realLibm.hypot x (P.cphi1 - y)| - Real.pi / 2)| ≤ 1e-10
          then 0
          else realLibm.hypot x (P.cphi1 - y) * realLibm.atan2 x (P.cphi1 - y) /
            Real.cos (P.cphi1 + P.phi1 - realLibm.hypot x (P.cphi1 - y)),
         P.cphi1 + P.phi1 - realLibm.hypot x (P.cphi1 - y)) := by
  unfold s_inverse
  simp only []
  rw [if_neg (show ¬ _ > realLibm.half_pi from not_lt.mpr h)]
  simp only [realLibm_half_pi, EPS10_real, realLibm_cos]
  split_ifs <;> rfl

/-- C11 at `cphi1 = 0`, `phi1 = 1`, `(x, y) = (1, 0)`: the recovered latitude is
`0` and the longitude `1 * atan2(1, 0) / cos 0 = π/2`. -/
theorem s_inverse_ok_witness :
    s_inverse realLibm (⟨1, 0, 0, 0, 0⟩ : par_bonne ℝ ℝ) 1 0 = Except.ok (Real.pi / 2, 0) := by
  have hpi := Real.pi_gt_three
  have hh : realLibm.hypot 1 ((0 : ℝ) - 0) = 1 := by
    rw [sub_zero]; exact hypot_zero_right 1 zero_le_one
  have harg : realLibm.atan2 1 ((0 : ℝ) - 0) = Real.pi / 2 := by
    rw [realLibm_atan2]
    exact Complex.arg_eq_pi_div_two_iff.mpr ⟨by simp, by simp⟩
  have h := s_inverse_ok (⟨1, 0, 0, 0, 0⟩ : par_bonne ℝ ℝ) 1 0
    (by simp only [hh]; norm_num; positivity)
  rw [h]
  simp only [hh, harg]
  rw [if_neg]
  · norm_num
  · norm_num
    rw [abs_of_pos (by positivity)]
    norm_num
    linarith

end InverseResults

section Symmetry

variable {En : Type}

lemma s_forward_neg (P : par_bonne ℝ En) (lon lat : ℝ) :
    s_forward realLibm P (-lon) lat =
      (-(s_forward realLibm P lon lat).1, (s_forward realLibm P lon lat).2) := by
  unfold s_forward
  simp only []
  split_ifs
  · simp only [realLibm_sin, realLibm_cos, neg_mul, neg_div, Real.sin_neg, Real.cos_neg,
      mul_neg]
  · simp

lemma e_forward_neg (M : MeridianArc ℝ En) (par : Parameters ℝ) (P : par_bonne ℝ En)
    (lon lat : ℝ) :
    e_forward realLibm M par P (-lon) lat =
      (-(e_forward realLibm M par P lon lat).1, (e_forward realLibm M par P lon lat).2) := by
  unfold e_forward
  simp only [realLibm_sin, realLibm_cos, realLibm_sqrt, mul_neg, neg_div, Real.sin_neg,
    Real.cos_neg]

/-- C17: both forward kernels are symmetric about the central meridian: if
`forward(lon, lat) = (x, y)` then `forward(-lon, lat) = (-x, y)`, for the
spherical kernel (its degenerate branch included) and the ellipsoidal kernel,
for every parameter bundle. -/
theorem forward_symmetry (M : MeridianArc ℝ En) (par : Parameters ℝ) (P : par_bonne ℝ En)
    (lon lat : ℝ) :
    (∀ x y, s_forward realLibm P lon lat = (x, y) →
        s_forward realLibm P (-lon) lat = (-x, y)) ∧
      (∀ x y, e_forward realLibm M par P lon lat = (x, y) →
        e_forward realLibm M par P (-lon) lat = (-x, y)) := by
  constructor
  · intro x y h
    rw [s_forward_neg, h]
  · intro x y h
    rw [e_forward_neg, h]

end Symmetry

section InverseDivisions

variable {En : Type}

lemma cos_pos_of_abs_lt (lat : ℝ) (h : |lat| < Real.pi / 2) : 0 < Real.cos lat :=
  Real.cos_pos_of_mem_Ioo ⟨by linarith [(abs_lt.mp h).1], (abs_lt.mp h).2⟩

/-- C18: the paths of the two inverse kernels, by their guards. The spherical
inverse divides by `cos(lat)` only on the path `¬ |lat| > π/2`,
`¬ ||lat| - π/2| ≤ 1e-10`, where `|lat| < π/2 - 1e-10`; the ellipsoidal inverse
only on the path `|lat| < π/2`; on both `cos(lat) > 0`. The other paths throw or
return longitude `0` without a division. -/
theorem inverse_cos_pos (M : MeridianArc ℝ En) (par : Parameters ℝ) (P : par_bonne ℝ En)
    (x y : ℝ) :
    (|P.cphi1 + P.phi1 - realLibm.hypot x (P.cphi1 - y)| > Real.pi / 2 →
        s_inverse realLibm P x y = Except.error Error.tolerance_condition) ∧
      (¬ |P.cphi1 + P.phi1 - realLibm.hypot x (P.cphi1 - y)| > Real.pi / 2 →
        |(|P.cphi1 + P.phi1 - realLibm.hypot x (P.cphi1 - y)| - Real.pi / 2)| ≤ 1e-10 →
        s_inverse realLibm P x y =
          Except.ok (0, P.cphi1 + P.phi1 - realLibm.hypot x (P.cphi1 - y))) ∧
      (¬ |P.cphi1 + P.phi1 - realLibm.hypot x (P.cphi1 - y)| > Real.pi / 2 →
        ¬ |(|P.cphi1 + P.phi1 - realLibm.hypot x (P.cphi1 - y)| - Real.pi / 2)| ≤ 1e-10 →
        s_inverse realLibm P x y =
            Except.ok (realLibm.hypot x (P.cphi1 - y) * realLibm.atan2 x (P.cphi1 - y) /
                Real.cos (P.cphi1 + P.phi1 - realLibm.hypot x (P.cphi1 - y)),
              P.cphi1 + P.phi1 - realLibm.hypot x (P.cphi1 - y)) ∧
          |P.cphi1 + P.phi1 - realLibm.hypot x (P.cphi1 - y)| < Real.pi / 2 - 1e-10 ∧
          0 < Real.cos (P.cphi1 + P.phi1 - realLibm.hypot x (P.cphi1 - y))) ∧
      (|e_inverse_lat realLibm M par P x y| < Real.pi / 2 →
        e_inverse realLibm M par P x y =
            Except.ok (e_inverse_lon realLibm M par P x y, e_inverse_lat realLibm M par P x y) ∧
          0 < Real.cos (e_inverse_lat realLibm M par P x y)) ∧
      (¬ |e_inverse_lat realLibm M par P x y| < Real.pi / 2 →
        e_inverse realLibm M par P x y = Except.ok (0, e_inverse_lat realLibm M par P x y) ∨
          e_inverse realLibm M par P x y = Except.error Error.tolerance_condition) := by
  have heps : (0 : ℝ) < 1e-10 := by norm_num
  refine ⟨?_, ?_, ?_, ?_, ?_⟩
  · intro h
    unfold s_inverse
    simp only []
    rw [if_pos (show _ > realLibm.half_pi from h)]
  · intro h1 h2
    unfold s_inverse
    simp only []
    rw [if_neg (show ¬ _ > realLibm.half_pi from h1),
      if_pos (show |(_ - realLibm.half_pi)| ≤ (EPS10 : ℝ) from h2)]
  · intro h1 h2
    have hlt : |P.cphi1 + P.phi1 - realLibm.hypot x (P.cphi1 - y)| < Real.pi / 2 - 1e-10 := by
      rw [gt_iff_lt, not_lt] at h1
      rw [not_le, abs_of_nonpos (by linarith)] at h2
      linarith
    refine ⟨?_, hlt, cos_pos_of_abs_lt _ (by linarith)⟩
    unfold s_inverse
    simp only []
    rw [if_neg (show ¬ _ > realLibm.half_pi from h1),
      if_neg (show ¬ |(_ - realLibm.half_pi)| ≤ (EPS10 : ℝ) from h2)]
    rfl
  · intro h
    exact ⟨e_inverse_lt M par P x y h, cos_pos_of_abs_lt _ h⟩
  · intro h
    rw [not_lt] at h
    by_cases h2 : |e_inverse_lat realLibm M par P x y| ≤ Real.pi / 2 + 1e-10
    · exact Or.inl (e_inverse_pole M par P x y h h2)
    · exact Or.inr (e_inverse_beyond M par P x y (not_le.mp h2))

end InverseDivisions

/-! ## Divisions in setup and in the ellipsoidal forward kernel -/

section SetupDivisions

variable {En : Type}

lemma pj_get_param_r_lat_1 (phi1 : ℝ) : pj_get_param_r [("lat_1", phi1)] "lat_1" = phi1 := by
  simp [pj_get_param_r, List.lookup]

/-- Spherical setup away from the pole band: `cphi1 = 1 / tan(phi1)`. -/
lemma setup_bonne_cot (M : MeridianArc ℝ En) (proj_parm : par_bonne ℝ En) (phi1 : ℝ)
    (h1 : (1e-10 : ℝ) ≤ |phi1|) (h2 : |phi1| < Real.pi / 2 - 1e-10) :
    setup_bonne realLibm M ⟨[("lat_1", phi1)], 0⟩ proj_parm =
      Except.ok ⟨phi1, 1 / Real.tan phi1, proj_parm.am1, proj_parm.m1, proj_parm.en⟩ := by
  rw [setup_bonne_sphere M ⟨[("lat_1", phi1)], 0⟩ proj_parm
    (by rw [pj_get_param_r_lat_1]; exact h1) rfl]
  simp only [pj_get_param_r_lat_1]
  rw [if_neg (by rw [ge_iff_le, not_le]; linarith)]

/-- Spherical setup in the pole band: `cphi1 = 0`. -/
lemma setup_bonne_pole (M : MeridianArc ℝ En) (proj_parm : par_bonne ℝ En) (phi1 : ℝ)
    (h1 : (1e-10 : ℝ) ≤ |phi1|) (h2 : |phi1| + 1e-10 ≥ Real.pi / 2) :
    setup_bonne realLibm M ⟨[("lat_1", phi1)], 0⟩ proj_parm =
      Except.ok ⟨phi1, 0, proj_parm.am1, proj_parm.m1, proj_parm.en⟩ := by
  rw [setup_bonne_sphere M ⟨[("lat_1", phi1)], 0⟩ proj_parm
    (by rw [pj_get_param_r_lat_1]; exact h1) rfl]
  simp only [pj_get_param_r_lat_1]
  rw [if_pos h2]

/-- Ellipsoidal setup is the branch body `e_setup` on the bundle whose `phi1` has
been read. -/
lemma setup_bonne_eq_e_setup (M : MeridianArc ℝ En) (par : Parameters ℝ)
    (proj_parm : par_bonne ℝ En)
    (hphi : (1e-10 : ℝ) ≤ |pj_get_param_r par.params "lat_1"|) (hes : par.es ≠ 0) :
    setup_bonne realLibm M par proj_parm =
      Except.ok (e_setup realLibm M par
        ⟨pj_get_param_r par.params "lat_1", proj_parm.cphi1, proj_parm.am1, proj_parm.m1,
          proj_parm.en⟩) := by
  rw [setup_bonne_ellipsoid M par proj_parm hphi hes]
  rfl

/-- C19: for `1e-10 ≤ |phi1| ≤ π/2` and `0 ≤ es < 1`, setup divides by nothing
that is zero. In the ellipsoidal branch (`es ≠ 0`) the divisor
`sqrt(1 - es sin² phi1) * sin phi1` of `am1` is non-zero. In the spherical branch
the quotient `1 / tan(phi1)` is formed only on the path
`¬ |phi1| + 1e-10 ≥ π/2`, where `|phi1| < π/2 - 1e-10`, `cos(phi1) ≠ 0` and
`tan(phi1) ≠ 0`; on the other path `cphi1 = 0` is stored without a division. -/
theorem setup_bonne_divisors (M : MeridianArc ℝ En) (proj_parm : par_bonne ℝ En)
    (phi1 es : ℝ) (h1 : (1e-10 : ℝ) ≤ |phi1|) (h2 : |phi1| ≤ Real.pi / 2)
    (_hes0 : 0 ≤ es) (hes1 : es < 1) :
    (es ≠ 0 →
        Real.sqrt (1 - es * Real.sin phi1 * Real.sin phi1) * Real.sin phi1 ≠ 0 ∧
          ∃ P, setup_bonne realLibm M ⟨[("lat_1", phi1)], es⟩ proj_parm = Except.ok P ∧
            P.am1 = Real.cos phi1 /
              (Real.sqrt (1 - es * Real.sin phi1 * Real.sin phi1) * Real.sin phi1)) ∧
      (es = 0 → |phi1| + 1e-10 ≥ Real.pi / 2 →
        setup_bonne realLibm M ⟨[("lat_1", phi1)], es⟩ proj_parm =
          Except.ok ⟨phi1, 0, proj_parm.am1, proj_parm.m1, proj_parm.en⟩) ∧
      (es = 0 → ¬ |phi1| + 1e-10 ≥ Real.pi / 2 →
        |phi1| < Real.pi / 2 - 1e-10 ∧ Real.cos phi1 ≠ 0 ∧ Real.tan phi1 ≠ 0 ∧
          setup_bonne realLibm M ⟨[("lat_1", phi1)], es⟩ proj_parm =
            Except.ok ⟨phi1, 1 / Real.tan phi1, proj_parm.am1, proj_parm.m1,
              proj_parm.en⟩) := by
  have heps : (0 : ℝ) < 1e-10 := by norm_num
  have hsin := sin_ne_zero_of_abs phi1 h1 h2
  refine ⟨fun hes => ⟨?_, ?_⟩, ?_, ?_⟩
  · exact mul_ne_zero (Real.sqrt_pos.mpr (one_sub_es_sin_sq_pos es phi1 hes1)).ne.symm hsin
  · refine ⟨_, setup_bonne_ellipsoid M ⟨[("lat_1", phi1)], es⟩ proj_parm
      (by rw [pj_get_param_r_lat_1]; exact h1) hes, ?_⟩
    simp only [pj_get_param_r_lat_1]
  · intro hes hp
    subst hes
    exact setup_bonne_pole M proj_parm phi1 h1 hp
  · intro hes hp
    subst hes
    have hlt : |phi1| < Real.pi / 2 - 1e-10 := by
      rw [ge_iff_le, not_le] at hp; linarith
    have hcos : Real.cos phi1 ≠ 0 := (cos_pos_of_abs_lt phi1 (by linarith)).ne.symm
    refine ⟨hlt, hcos, ?_, setup_bonne_cot M proj_parm phi1 h1 hlt⟩
    rw [Real.tan_eq_sin_div_cos]
    exact div_ne_zero hsin hcos

/-- C19 at `lat_1 = 1` radian: the ellipsoidal divisor for `es = 1/2` and the
tangent are non-zero. -/
theorem setup_bonne_divisors_witness :
    Real.sqrt (1 - 1 / 2 * Real.sin 1 * Real.sin 1) * Real.sin 1 ≠ 0 ∧ Real.tan 1 ≠ 0 := by
  have hpi := Real.pi_gt_three
  have h1 : (1e-10 : ℝ) ≤ |(1 : ℝ)| := by norm_num
  have h2 : |(1 : ℝ)| ≤ Real.pi / 2 := by rw [abs_one]; linarith
  have hp : ¬ |(1 : ℝ)| + 1e-10 ≥ Real.pi / 2 := by
    rw [abs_one, ge_iff_le, not_le]; norm_num; linarith
  exact ⟨((setup_bonne_divisors (linearArc ℝ) ⟨0, 0, 0, 0, 0⟩ 1 (1 / 2) h1 h2
      (by norm_num) (by norm_num)).1 (by norm_num)).1,
    ((setup_bonne_divisors (linearArc ℝ) ⟨0, 0, 0, 0, 0⟩ 1 0 h1 h2
      le_rfl (by norm_num)).2.2 rfl hp).2.2.1⟩

end SetupDivisions

section ForwardDivision

variable {En : Type}

/-- C14 (the code at the failing input): for the Werner parallel `lat_1 = 90°`
on an ellipsoid (`es = 1/2`, any meridian-arc collaborator), setup gives
`am1 = 0`, and at the pole `lat = π/2` the cone radius of the ellipsoidal
forward kernel is `rh = am1 + m1 - pj_mlfn(π/2, ...) = 0`: the divisor
`rh * sqrt(1 - es sin²(lat))` of line 101 is zero, and the numerator
`cos(lat) * lon` is zero as well. -/
theorem e_forward_werner_pole (M : MeridianArc ℝ En) (proj_parm : par_bonne ℝ En)
    (lon : ℝ) :
    ∃ P, setup_bonne realLibm M ⟨[("lat_1", Real.pi / 2)], 1 / 2⟩ proj_parm = Except.ok P ∧
      (1e-10 : ℝ) ≤ |P.phi1| ∧ |P.phi1| ≤ Real.pi / 2 ∧
      P.am1 = 0 ∧
      e_forward_rh realLibm M P (Real.pi / 2) = 0 ∧
      e_forward_rh realLibm M P (Real.pi / 2) *
          Real.sqrt (1 - 1 / 2 * Real.sin (Real.pi / 2) * Real.sin (Real.pi / 2)) = 0 ∧
      Real.cos (Real.pi / 2) * lon = 0 := by
  have hpi := Real.pi_gt_three
  have hhalf : (0 : ℝ) < Real.pi / 2 := by positivity
  have hphi : (1e-10 : ℝ) ≤ |Real.pi / 2| := by
    rw [abs_of_pos hhalf]; norm_num; linarith
  have hset := setup_bonne_ellipsoid M ⟨[("lat_1", Real.pi / 2)], 1 / 2⟩ proj_parm
    (by rw [pj_get_param_r_lat_1]; exact hphi) (by norm_num)
  simp only [pj_get_param_r_lat_1] at hset
  have hrh : e_forward_rh realLibm M
      (⟨Real.pi / 2, proj_parm.cphi1,
        Real.cos (Real.pi / 2) /
          (Real.sqrt (1 - 1 / 2 * Real.sin (Real.pi / 2) * Real.sin (Real.pi / 2)) *
            Real.sin (Real.pi / 2)),
        M.pj_mlfn (Real.pi / 2) (Real.sin (Real.pi / 2)) (Real.cos (Real.pi / 2))
          (M.pj_enfn (1 / 2)),
        M.pj_enfn (1 / 2)⟩ : par_bonne ℝ En) (Real.pi / 2) = 0 := by
    unfold e_forward_rh
    simp
  refine ⟨_, hset, hphi, ?_, ?_, hrh, ?_, ?_⟩
  · show |Real.pi / 2| ≤ Real.pi / 2
    rw [abs_of_pos hhalf]
  · simp
  · rw [hrh, zero_mul]
  · simp

end ForwardDivision

/-! ## The ellipsoidal formulas at `es = 0` -/

section EssZero

variable {En : Type}

/-- C12: let `es = 0` and let the collaborator reduce to
`pj_mlfn(phi, sin phi, cos phi, pj_enfn(0)) = phi`. For `1e-10 ≤ |phi1| < π/2 - 1e-10`
the ellipsoidal setup formulas (`e_setup`) give `am1 = 1 / tan(phi1)` and
`m1 = phi1`, which are the spherical `cphi1` and `phi1`, and for every
`(lon, lat)` with `|cphi1 + phi1 - lat| > 1e-10` the ellipsoidal forward kernel
on that bundle returns exactly what the spherical forward kernel returns on the
bundle of the spherical setup. -/
theorem e_forward_eq_s_forward (M : MeridianArc ℝ En) (proj_parm : par_bonne ℝ En)
    (phi1 lon lat : ℝ)
    (hM : ∀ phi : ℝ, M.pj_mlfn phi (Real.sin phi) (Real.cos phi) (M.pj_enfn 0) = phi)
    (h1 : (1e-10 : ℝ) ≤ |phi1|) (h2 : |phi1| < Real.pi / 2 - 1e-10)
    (hrh : |1 / Real.tan phi1 + phi1 - lat| > 1e-10) :
    setup_bonne realLibm M ⟨[("lat_1", phi1)], 0⟩ proj_parm =
        Except.ok ⟨phi1, 1 / Real.tan phi1, proj_parm.am1, proj_parm.m1, proj_parm.en⟩ ∧
      (e_setup realLibm M ⟨[("lat_1", phi1)], 0⟩
          ⟨phi1, proj_parm.cphi1, proj_parm.am1, proj_parm.m1, proj_parm.en⟩).am1 =
        1 / Real.tan phi1 ∧
      (e_setup realLibm M ⟨[("lat_1", phi1)], 0⟩
          ⟨phi1, proj_parm.cphi1, proj_parm.am1, proj_parm.m1, proj_parm.en⟩).m1 = phi1 ∧
      e_forward realLibm M ⟨[("lat_1", phi1)], 0⟩
          (e_setup realLibm M ⟨[("lat_1", phi1)], 0⟩
            ⟨phi1, proj_parm.cphi1, proj_parm.am1, proj_parm.m1, proj_parm.en⟩) lon lat =
        s_forward realLibm
          (⟨phi1, 1 / Real.tan phi1, proj_parm.am1, proj_parm.m1, proj_parm.en⟩ :
            par_bonne ℝ En) lon lat := by
  have heps : (0 : ℝ) < 1e-10 := by norm_num
  have ham1 : (e_setup realLibm M ⟨[("lat_1", phi1)], 0⟩
      ⟨phi1, proj_parm.cphi1, proj_parm.am1, proj_parm.m1, proj_parm.en⟩).am1 =
      1 / Real.tan phi1 := by
    simp only [e_setup, realLibm_sin, realLibm_cos, realLibm_sqrt, zero_mul, sub_zero,
      Real.sqrt_one, one_mul]
    rw [Real.tan_eq_sin_div_cos, one_div_div]
  have hm1 : (e_setup realLibm M ⟨[("lat_1", phi1)], 0⟩
      ⟨phi1, proj_parm.cphi1, proj_parm.am1, proj_parm.m1, proj_parm.en⟩).m1 = phi1 := by
    simp only [e_setup, realLibm_sin, realLibm_cos]
    exact hM phi1
  have hen : (e_setup realLibm M ⟨[("lat_1", phi1)], 0⟩
      ⟨phi1, proj_parm.cphi1, proj_parm.am1, proj_parm.m1, proj_parm.en⟩).en = M.pj_enfn 0 :=
    rfl
  refine ⟨setup_bonne_cot M proj_parm phi1 h1 h2, ham1, hm1, ?_⟩
  rw [s_forward_general _ lon lat hrh]
  unfold e_forward
  simp only [ham1, hm1, hen, realLibm_sin, realLibm_cos, realLibm_sqrt, hM lat, zero_mul,
    sub_zero, Real.sqrt_one, mul_one]
  rw [mul_comm (Real.cos lat) lon]

end EssZero

section EssZeroWitness

/-- C12 on `linearArc` (whose distance at `es = 0` is `phi`), `lat_1 = 1` radian,
`(lon, lat) = (1/2, 0)`. -/
theorem e_forward_eq_s_forward_witness :
    e_forward realLibm (linearArc ℝ) ⟨[("lat_1", 1)], 0⟩
        (e_setup realLibm (linearArc ℝ) ⟨[("lat_1", 1)], 0⟩ ⟨1, 0, 0, 0, 0⟩) (1 / 2) 0 =
      s_forward realLibm (⟨1, 1 / Real.tan 1, 0, 0, 0⟩ : par_bonne ℝ ℝ) (1 / 2) 0 := by
  have hpi := Real.pi_gt_three
  have htan : 0 < Real.tan 1 :=
    Real.tan_pos_of_pos_of_lt_pi_div_two one_pos (by linarith)
  have hcot : 0 < 1 / Real.tan 1 := one_div_pos.mpr htan
  exact (e_forward_eq_s_forward (linearArc ℝ) ⟨1, 0, 0, 0, 0⟩ 1 (1 / 2) 0
    (fun phi => by simp [linearArc]) (by norm_num)
    (by rw [abs_one]; norm_num; linarith)
    (by rw [abs_of_pos (by linarith)]; rw [one_div] at hcot ⊢; norm_num; linarith)).2.2.2

end EssZeroWitness

/-! ## Northern and southern standard parallels on the sphere -/

section Hemispheres

variable {En : Type}

/-- C15: for `1e-10 ≤ phi1 < π/2 - 1e-10` setup stores `cphi1 = 1 / tan(phi1)`,
and for `|lon| ≤ π`, `|lat| < π/2 - 1e-10` the cone radius has
`rh ≥ π/2 - lat > 1e-10` (the forward kernel takes its general branch), `lat` is
not at-pole, and the spherical inverse of the spherical forward image of
`(lon, lat)` is exactly `(lon, lat)`. -/
theorem s_roundtrip_exact_north (M : MeridianArc ℝ En) (proj_parm : par_bonne ℝ En)
    (phi1 lon lat : ℝ)
    (h1 : (1e-10 : ℝ) ≤ phi1) (h2 : phi1 < Real.pi / 2 - 1e-10)
    (hlon : |lon| ≤ Real.pi) (hlat : |lat| < Real.pi / 2 - 1e-10) :
    setup_bonne realLibm M ⟨[("lat_1", phi1)], 0⟩ proj_parm =
        Except.ok ⟨phi1, 1 / Real.tan phi1, proj_parm.am1, proj_parm.m1, proj_parm.en⟩ ∧
      1 / Real.tan phi1 + phi1 - lat ≥ Real.pi / 2 - lat ∧
      Real.pi / 2 - lat > 1e-10 ∧
      ¬ |(|lat| - Real.pi / 2)| ≤ 1e-10 ∧
      s_inverse realLibm
          (⟨phi1, 1 / Real.tan phi1, proj_parm.am1, proj_parm.m1, proj_parm.en⟩ :
            par_bonne ℝ En)
          (s_forward realLibm
            (⟨phi1, 1 / Real.tan phi1, proj_parm.am1, proj_parm.m1, proj_parm.en⟩ :
              par_bonne ℝ En) lon lat).1
          (s_forward realLibm
            (⟨phi1, 1 / Real.tan phi1, proj_parm.am1, proj_parm.m1, proj_parm.en⟩ :
              par_bonne ℝ En) lon lat).2 =
        Except.ok (lon, lat) := by
  have heps : (0 : ℝ) < 1e-10 := by norm_num
  have hpos : 0 < phi1 := by linarith
  have hk := half_pi_lt_cot_add phi1 hpos (by linarith)
  obtain ⟨hl1, hl2⟩ := abs_lt.mp hlat
  refine ⟨setup_bonne_cot M proj_parm phi1 (by rw [abs_of_pos hpos]; exact h1)
    (by rw [abs_of_pos hpos]; exact h2), by linarith, by linarith, ?_, ?_⟩
  · rw [not_le, abs_of_neg (by linarith)]
    linarith
  · exact (s_roundtrip_core
      (⟨phi1, 1 / Real.tan phi1, proj_parm.am1, proj_parm.m1, proj_parm.en⟩ : par_bonne ℝ En)
      lon lat hk.le hlon hlat).2

/-- C15 at `lat_1 = 1/2` radian, `(lon, lat) = (-1, -1/2)`. -/
theorem s_roundtrip_exact_north_witness :
    s_inverse realLibm (⟨1 / 2, 1 / Real.tan (1 / 2), 0, 0, 0⟩ : par_bonne ℝ ℝ)
        (s_forward realLibm (⟨1 / 2, 1 / Real.tan (1 / 2), 0, 0, 0⟩ : par_bonne ℝ ℝ)
          (-1) (-(1 / 2))).1
        (s_forward realLibm (⟨1 / 2, 1 / Real.tan (1 / 2), 0, 0, 0⟩ : par_bonne ℝ ℝ)
          (-1) (-(1 / 2))).2 =
      Except.ok (-1, -(1 / 2)) := by
  have hpi := Real.pi_gt_three
  exact (s_roundtrip_exact_north (linearArc ℝ) ⟨0, 0, 0, 0, 0⟩ (1 / 2) (-1) (-(1 / 2))
    (by norm_num) (by norm_num; linarith) (by rw [abs_neg, abs_one]; linarith)
    (by rw [abs_neg, abs_of_pos (by norm_num)]; norm_num; linarith)).2.2.2.2

/-- `cot φ + φ < -π/2` on `(-π/2, 0)`. -/
lemma cot_add_lt_neg_half_pi (phi : ℝ) (h0 : phi < 0) (h1 : -(Real.pi / 2) < phi) :
    1 / Real.tan phi < 0 ∧ 1 / Real.tan phi + phi < -(Real.pi / 2) := by
  have h := half_pi_lt_cot_add (-phi) (by linarith) (by linarith)
  have htan := Real.tan_pos_of_pos_of_lt_pi_div_two (show 0 < -phi by linarith) (by linarith)
  rw [Real.tan_neg] at h htan
  have hneg : 1 / -Real.tan phi = -(1 / Real.tan phi) := by
    rw [one_div, one_div, inv_neg]
  rw [hneg] at h
  have hc : 1 / Real.tan phi < 0 := one_div_neg.mpr (by linarith)
  exact ⟨hc, by linarith⟩

/-- The spherical inverse rejects every forward image when `cphi1 < 0` and
`cphi1 + phi1 < -π/2`, in the general branch of the forward kernel and in its
degenerate branch. -/
lemma s_roundtrip_south_core (P : par_bonne ℝ En) (lon lat : ℝ)
    (hc : P.cphi1 < 0) (hk : P.cphi1 + P.phi1 < -(Real.pi / 2))
    (hlat : -(Real.pi / 2) ≤ lat) :
    s_inverse realLibm P (s_forward realLibm P lon lat).1 (s_forward realLibm P lon lat).2 =
      Except.error Error.tolerance_condition := by
  have hpi := Real.pi_pos
  have hrh : P.cphi1 + P.phi1 - lat < 0 := by linarith
  by_cases hgen : (1e-10 : ℝ) < |P.cphi1 + P.phi1 - lat|
  · rw [s_forward_general P lon lat hgen]
    simp only []
    rw [s_inverse_polar, abs_of_neg hrh, if_pos]
    rw [abs_of_neg (by linarith)]
    linarith
  · have hdeg : s_forward realLibm P lon lat = (0, 0) := by
      unfold s_forward
      simp only []
      rw [if_neg (show ¬ |P.cphi1 + P.phi1 - lat| > (EPS10 : ℝ) from hgen)]
    have h00 : s_inverse realLibm P 0 0 =
        s_inverse realLibm P (P.cphi1 * Real.sin 0) (P.cphi1 - P.cphi1 * Real.cos 0) := by
      simp
    rw [hdeg]
    simp only []
    rw [h00, s_inverse_polar, abs_of_neg hc, if_pos]
    rw [abs_of_neg (by linarith)]
    linarith

/-- C16: for a southern standard parallel `-π/2 + 1e-10 < phi1 ≤ -1e-10` setup
stores `cphi1 = 1 / tan(phi1) < 0`, the forward cone radius
`rh = cphi1 + phi1 - lat` is negative for every `lat` in `[-π/2, π/2]`, and for
every `lon` the spherical inverse applied to the spherical forward image of
`(lon, lat)` throws `error_tolerance_condition`. -/
theorem s_roundtrip_south_fails (M : MeridianArc ℝ En) (proj_parm : par_bonne ℝ En)
    (phi1 lon lat : ℝ)
    (h1 : -(Real.pi / 2) + 1e-10 < phi1) (h2 : phi1 ≤ -1e-10)
    (hlat1 : -(Real.pi / 2) ≤ lat) (_hlat2 : lat ≤ Real.pi / 2) :
    setup_bonne realLibm M ⟨[("lat_1", phi1)], 0⟩ proj_parm =
        Except.ok ⟨phi1, 1 / Real.tan phi1, proj_parm.am1, proj_parm.m1, proj_parm.en⟩ ∧
      1 / Real.tan phi1 < 0 ∧
      1 / Real.tan phi1 + phi1 - lat < 0 ∧
      s_inverse realLibm
          (⟨phi1, 1 / Real.tan phi1, proj_parm.am1, proj_parm.m1, proj_parm.en⟩ :
            par_bonne ℝ En)
          (s_forward realLibm
            (⟨phi1, 1 / Real.tan phi1, proj_parm.am1, proj_parm.m1, proj_parm.en⟩ :
              par_bonne ℝ En) lon lat).1
          (s_forward realLibm
            (⟨phi1, 1 / Real.tan phi1, proj_parm.am1, proj_parm.m1, proj_parm.en⟩ :
              par_bonne ℝ En) lon lat).2 =
        Except.error Error.tolerance_condition := by
  have heps : (0 : ℝ) < 1e-10 := by norm_num
  have hneg : phi1 < 0 := by linarith
  obtain ⟨hc, hk⟩ := cot_add_lt_neg_half_pi phi1 hneg (by linarith)
  refine ⟨setup_bonne_cot M proj_parm phi1 (by rw [abs_of_neg hneg]; linarith)
    (by rw [abs_of_neg hneg]; linarith), hc, by linarith, ?_⟩
  exact s_roundtrip_south_core
    (⟨phi1, 1 / Real.tan phi1, proj_parm.am1, proj_parm.m1, proj_parm.en⟩ : par_bonne ℝ En)
    lon lat hc hk hlat1

/-- C16 at `lat_1 = -1/2` radian, `(lon, lat) = (1, 1/2)`. -/
theorem s_roundtrip_south_fails_witness :
    s_inverse realLibm (⟨-(1 / 2), 1 / Real.tan (-(1 / 2)), 0, 0, 0⟩ : par_bonne ℝ ℝ)
        (s_forward realLibm (⟨-(1 / 2), 1 / Real.tan (-(1 / 2)), 0, 0, 0⟩ : par_bonne ℝ ℝ)
          1 (1 / 2)).1
        (s_forward realLibm (⟨-(1 / 2), 1 / Real.tan (-(1 / 2)), 0, 0, 0⟩ : par_bonne ℝ ℝ)
          1 (1 / 2)).2 =
      Except.error Error.tolerance_condition := by
  have hpi := Real.pi_gt_three
  exact (s_roundtrip_south_fails (linearArc ℝ) ⟨0, 0, 0, 0, 0⟩ (-(1 / 2)) 1 (1 / 2)
    (by norm_num; linarith) (by norm_num) (by linarith) (by linarith)).2.2.2

end Hemispheres

/-! ## The factory entry -/

section FactoryEntry

variable {En : Type}

lemma create_new_ellipsoid (M : MeridianArc ℝ En) (par : Parameters ℝ)
    (proj_parm P : par_bonne ℝ En) (hes : par.es ≠ 0)
    (hs : setup_bonne realLibm M par proj_parm = Except.ok P) :
    create_new realLibm M par proj_parm = Except.ok ⟨Kernel.ellipsoid, par, P⟩ := by
  unfold create_new
  rw [if_pos hes]
  unfold bonne_ellipsoid
  rw [hs]

lemma create_new_spheroid (M : MeridianArc ℝ En) (par : Parameters ℝ)
    (proj_parm P : par_bonne ℝ En) (hes : par.es = 0)
    (hs : setup_bonne realLibm M par proj_parm = Except.ok P) :
    create_new realLibm M par proj_parm = Except.ok ⟨Kernel.spheroid, par, P⟩ := by
  unfold create_new
  rw [if_neg (not_not.mpr hes)]
  unfold bonne_spheroid
  rw [hs]

lemma create_new_error (M : MeridianArc ℝ En) (par : Parameters ℝ)
    (proj_parm : par_bonne ℝ En) (e : Error)
    (hs : setup_bonne realLibm M par proj_parm = Except.error e) :
    create_new realLibm M par proj_parm = Except.error e := by
  unfold create_new bonne_ellipsoid bonne_spheroid
  rw [hs]
  split_ifs <;> rfl

/-- What a successful `create_new` has built. -/
lemma create_new_ok (M : MeridianArc ℝ En) (par : Parameters ℝ)
    (proj_parm : par_bonne ℝ En) (proj : Projection ℝ En)
    (h : create_new realLibm M par proj_parm = Except.ok proj) :
    (1e-10 : ℝ) ≤ |pj_get_param_r par.params "lat_1"| ∧
      setup_bonne realLibm M par proj_parm = Except.ok proj.m_proj_parm ∧
      proj.m_par = par ∧
      proj.kernel = (if par.es ≠ 0 then Kernel.ellipsoid else Kernel.spheroid) := by
  cases hs : setup_bonne realLibm M par proj_parm with
  | error e =>
    rw [create_new_error M par proj_parm e hs] at h
    cases h
  | ok P =>
    by_cases hes : par.es = 0
    · rw [create_new_spheroid M par proj_parm P hes hs] at h
      injection h with h
      subst h
      exact ⟨setup_bonne_ok_abs M par proj_parm P hs, rfl, rfl,
        by rw [if_neg (not_not.mpr hes)]⟩
    · rw [create_new_ellipsoid M par proj_parm P hes hs] at h
      injection h with h
      subst h
      exact ⟨setup_bonne_ok_abs M par proj_parm P hs, rfl, rfl, by rw [if_pos hes]⟩

/-- C13: the entry registered under `"bonne"` is `create_new`. A projection it
creates is the ellipsoidal kernel exactly when `es ≠ 0` and the spherical kernel
exactly when `es = 0`, the condition on which `setup_bonne` branches; it is
created whenever setup returns, and its
bundle is the one `setup_bonne` returned: `am1`, `m1`, `en` are the values setup
computed when the kernel is ellipsoidal, `phi1`, `cphi1` when it is spherical.
So `fwd` and `inv` of the created projection do not depend on what
`m_proj_parm` held before setup. -/
theorem create_new_dispatch (M : MeridianArc ℝ En) (par : Parameters ℝ)
    (proj_parm proj_parm2 : par_bonne ℝ En) :
    (∀ (F : Type) (add_to_factory : F → String →
          (Parameters ℝ → par_bonne ℝ En → Except Error (Projection ℝ En)) → F) (factory : F),
        bonne_init realLibm M add_to_factory factory =
          add_to_factory factory "bonne" (create_new realLibm M)) ∧
      (∀ P, setup_bonne realLibm M par proj_parm = Except.ok P →
        create_new realLibm M par proj_parm =
          Except.ok ⟨if par.es ≠ 0 then Kernel.ellipsoid else Kernel.spheroid, par, P⟩) ∧
      (∀ proj, create_new realLibm M par proj_parm = Except.ok proj →
        (proj.kernel = Kernel.ellipsoid ↔ par.es ≠ 0) ∧
        (proj.kernel = Kernel.spheroid ↔ par.es = 0) ∧
        proj.m_par = par ∧
        setup_bonne realLibm M par proj_parm = Except.ok proj.m_proj_parm ∧
        (proj.kernel = Kernel.ellipsoid →
          proj.m_proj_parm.en = M.pj_enfn par.es ∧
          proj.m_proj_parm.m1 = M.pj_mlfn (pj_get_param_r par.params "lat_1")
            (Real.sin (pj_get_param_r par.params "lat_1"))
            (Real.cos (pj_get_param_r par.params "lat_1")) (M.pj_enfn par.es) ∧
          proj.m_proj_parm.am1 = Real.cos (pj_get_param_r par.params "lat_1") /
            (Real.sqrt (1 - par.es * Real.sin (pj_get_param_r par.params "lat_1") *
                Real.sin (pj_get_param_r par.params "lat_1")) *
              Real.sin (pj_get_param_r par.params "lat_1"))) ∧
        (proj.kernel = Kernel.spheroid →
          proj.m_proj_parm.phi1 = pj_get_param_r par.params "lat_1" ∧
          proj.m_proj_parm.cphi1 =
            if |pj_get_param_r par.params "lat_1"| + 1e-10 ≥ Real.pi / 2 then 0
            else 1 / Real.tan (pj_get_param_r par.params "lat_1"))) ∧
      (∀ proj proj2, create_new realLibm M par proj_parm = Except.ok proj →
        create_new realLibm M par proj_parm2 = Except.ok proj2 →
        proj.kernel = proj2.kernel ∧
        (∀ lon lat, Projection.fwd realLibm M proj lon lat =
          Projection.fwd realLibm M proj2 lon lat) ∧
        (∀ x y, Projection.inv realLibm M proj x y =
          Projection.inv realLibm M proj2 x y)) := by
  refine ⟨fun F add_to_factory factory => rfl, ?_, ?_, ?_⟩
  · intro P hs
    by_cases hes : par.es = 0
    · rw [create_new_spheroid M par proj_parm P hes hs, if_neg (not_not.mpr hes)]
    · rw [create_new_ellipsoid M par proj_parm P hes hs, if_pos hes]
  · intro proj h
    obtain ⟨hphi, hset, hpar, hk⟩ := create_new_ok M par proj_parm proj h
    by_cases hes : par.es = 0
    · rw [if_neg (not_not.mpr hes)] at hk
      have hs := setup_bonne_sphere M par proj_parm hphi hes
      rw [hset] at hs
      injection hs with hs
      refine ⟨by simp [hk, hes], by simp [hk, hes], hpar, hset, ?_, ?_⟩
      · intro hke
        rw [hk] at hke
        cases hke
      · intro _
        rw [hs]
        exact ⟨rfl, rfl⟩
    · rw [if_pos hes] at hk
      have hs := setup_bonne_ellipsoid M par proj_parm hphi hes
      rw [hset] at hs
      injection hs with hs
      refine ⟨by simp [hk, hes], by simp [hk, hes], hpar, hset, ?_, ?_⟩
      · intro _
        rw [hs]
        exact ⟨rfl, rfl, rfl⟩
      · intro hke
        rw [hk] at hke
        cases hke
  · intro proj proj2 h h2
    obtain ⟨hphi, hset, hpar, hk⟩ := create_new_ok M par proj_parm proj h
    obtain ⟨_, hset2, hpar2, hk2⟩ := create_new_ok M par proj_parm2 proj2 h2
    by_cases hes : par.es = 0
    · rw [if_neg (not_not.mpr hes)] at hk hk2
      have hs := setup_bonne_sphere M par proj_parm hphi hes
      have hs2 := setup_bonne_sphere M par proj_parm2 hphi hes
      rw [hset] at hs
      rw [hset2] at hs2
      injection hs with hs
      injection hs2 with hs2
      refine ⟨by rw [hk, hk2], fun lon lat => ?_, fun x y => ?_⟩
      · simp only [Projection.fwd, hk, hk2, hs, hs2, s_forward]
      · simp only [Projection.inv, hk, hk2, hs, hs2, s_inverse]
    · rw [if_pos hes] at hk hk2
      have hs := setup_bonne_ellipsoid M par proj_parm hphi hes
      have hs2 := setup_bonne_ellipsoid M par proj_parm2 hphi hes
      rw [hset] at hs
      rw [hset2] at hs2
      injection hs with hs
      injection hs2 with hs2
      refine ⟨by rw [hk, hk2], fun lon lat => ?_, fun x y => ?_⟩
      · simp only [Projection.fwd, hk, hk2, hpar, hpar2, hs, hs2, e_forward]
      · simp only [Projection.inv, hk, hk2, hpar, hpar2, hs, hs2, e_inverse]

end FactoryEntry

end Bonne
